import Mathlib

/-
Verification of the psycho_portal knowledge subsystem.

This file gives a shallow embedding of the knowledge-graph data model and the
operations of `psycho/knowledge/schema.py`, `graph.py`, `evolution.py`,
`extractor.py`, `psycho/agent/reflection.py`, `psycho/agent/loop.py` and
`psycho/learning/signal_detector.py`, and proves or refutes the frozen claims
about them.

Modelling conventions:
  * Python floats are modelled as rationals (ℚ).  All confidence arithmetic in
    the source is plain +, min, max and average, which is exact on ℚ.
  * `time.time()` is modelled by an explicit `now : ℚ` argument, one instant
    per operation call (a monotone clock).
  * Python dicts whose values are only ever compared, stored or truncated are
    modelled as association lists of strings.
  * `uuid.uuid4()` fresh ids are modelled by a threaded natural counter.
  * ChromaDB indexing (`_index_node`) and JSON persistence (`save`) do not
    change the in-memory graph and are not modelled; the semantic search that
    seeds `get_context_for_query` is passed in as an arbitrary list of ids.
-/

namespace Psycho

/-- Python `str.lower()` (ASCII case folding suffices for the inputs here). -/
def pyLower (s : String) : String := String.mk (s.toList.map Char.toLower)

/-- Two-sided whitespace trim at the character-list level. -/
def stripL (l : List Char) : List Char :=
  ((l.dropWhile Char.isWhitespace).reverse.dropWhile Char.isWhitespace).reverse

/-- Python `str.strip()` with no argument: trim surrounding whitespace. -/
def pyStrip (s : String) : String := String.mk (stripL s.toList)

/-- Python slicing `s[:k]`: the first `k` characters. -/
def pyTake (k : Nat) (s : String) : String := String.mk (s.toList.take k)

/-- Python `str.capitalize()`: first character upper-cased, rest lower-cased. -/
def pyCapitalize (s : String) : String :=
  match s.toList with
  | [] => ""
  | c :: cs => String.mk (c.toUpper :: cs.map Char.toLower)

/-- Split a character list on whitespace runs (empty pieces dropped). -/
def splitWsChars (l : List Char) : List (List Char) :=
  (l.foldr (fun c acc =>
    if Char.isWhitespace c then [] :: acc
    else
      match acc with
      | [] => [[c]]
      | w :: rest => (c :: w) :: rest) []).filter (fun w => ¬ w.isEmpty)

/-- Python `str.split()` with no argument: split on whitespace runs, dropping
empty pieces. -/
def pySplitWs (s : String) : List String :=
  (splitWsChars s.toList).map String.mk

/-- `" ".join(words)`. -/
def joinSpace : List String → String
  | [] => ""
  | [w] => w
  | w :: ws => w ++ " " ++ joinSpace ws

/-- `" ".join(w.capitalize() for w in value.split())` from the extractor. -/
def pyCapWords (s : String) : String :=
  joinSpace ((pySplitWs s).map pyCapitalize)

/-- Node types, from `knowledge/schema.py` (`class NodeType`). -/
inductive NodeType where
  | concept | entity | person | fact | preference | skill | mistake
  | question | domain | topic | file | event | technology
deriving DecidableEq

/-- Edge types, from `knowledge/schema.py` (`class EdgeType`). -/
inductive EdgeType where
  | is_a | has_property | part_of | relates_to | depends_on | causes
  | used_in | similar_to | contradicts | supports | corrects
  | preferred_by | knows | dislikes | extracted_from | inferred_from
  | mentioned_in | authored_by | contains
deriving DecidableEq

/-- A node of the knowledge graph, from `knowledge/schema.py`
(`@dataclass class KnowledgeNode`).  Property values are modelled as
strings. -/
structure KnowledgeNode where
  id : String
  type : NodeType
  label : String
  display_label : String
  properties : List (String × String)
  confidence : ℚ
  created_at : ℚ
  last_accessed : ℚ
  last_updated : ℚ
  access_count : Nat
  domain : String
  sources : List String
  embedding_id : String
  deprecated : Bool
  deprecation_reason : String
deriving DecidableEq

/-- A directed edge, from `knowledge/schema.py` (`@dataclass KnowledgeEdge`). -/
structure KnowledgeEdge where
  source_id : String
  target_id : String
  type : EdgeType
  confidence : ℚ
  weight : ℚ
  properties : List (String × String)
  created_at : ℚ
  last_reinforced : ℚ
deriving DecidableEq

/-- `KnowledgeNode.create`: class method that normalizes the label and stamps
both timestamps with the current time (`uuid` freshness is the caller-supplied
`id`). -/
def KnowledgeNode.create (id : String) (type : NodeType) (label : String)
    (domain : String) (properties : List (String × String)) (confidence : ℚ)
    (sources : List String) (now : ℚ) : KnowledgeNode :=
  { id := id
    type := type
    label := pyStrip (pyLower label)
    display_label := pyStrip label
    properties := properties
    confidence := confidence
    created_at := now
    last_accessed := now
    last_updated := now
    access_count := 0
    domain := domain
    sources := sources
    embedding_id := ""
    deprecated := false
    deprecation_reason := "" }

/-- `KnowledgeNode.touch`: mark as accessed. -/
def KnowledgeNode.touch (n : KnowledgeNode) (now : ℚ) : KnowledgeNode :=
  { n with last_accessed := now, access_count := n.access_count + 1 }

/-- `KnowledgeNode.update_confidence`: apply a delta, clamped to
`[0.05, 0.95]`, and stamp `last_updated`. -/
def KnowledgeNode.update_confidence (n : KnowledgeNode) (delta : ℚ) (now : ℚ) :
    KnowledgeNode :=
  { n with confidence := max 0.05 (min 0.95 (n.confidence + delta))
           last_updated := now }

/-- `KnowledgeEdge.reinforce` (the call sites always use the default
`amount=0.1`). -/
def KnowledgeEdge.reinforce (e : KnowledgeEdge) (now : ℚ) : KnowledgeEdge :=
  { e with weight := e.weight + 0.1
           confidence := min 0.95 (e.confidence + 0.03)
           last_reinforced := now }

/-
The graph itself, from `knowledge/graph.py`.  The NetworkX `DiGraph` keeps one
attribute dictionary per node id and one per ordered `(source, target)` pair;
`add_edge` on an existing pair overwrites its `data` attribute.  We model the
node set as a list in insertion order (ids unique in every reachable state)
and the edge set as an association list keyed by `(source_id, target_id)`.
`pagerank_version` is an abstract marker counting how many times
`compute_pagerank` actually recomputed the (unmodelled, float-valued)
PageRank vector.
-/
structure KnowledgeGraph where
  nodes : List KnowledgeNode
  edges : List ((String × String) × KnowledgeEdge)
  pagerank_version : Nat
deriving DecidableEq

def KnowledgeGraph.empty : KnowledgeGraph := ⟨[], [], 0⟩

/-- `self._g.has_node(id)`. -/
def KnowledgeGraph.hasNodeId (g : KnowledgeGraph) (id : String) : Bool :=
  g.nodes.any (fun n => n.id == id)

/-- Raw node lookup by id (the dictionary access behind `get_node`, without
the `touch` side effect; call sites that touch apply `touch` explicitly). -/
def KnowledgeGraph.getNodeData (g : KnowledgeGraph) (id : String) :
    Option KnowledgeNode :=
  g.nodes.find? (fun n => n.id == id)

/-- Replace the node with the given id by `f` applied to it. -/
def KnowledgeGraph.updateNode (g : KnowledgeGraph) (id : String)
    (f : KnowledgeNode → KnowledgeNode) : KnowledgeGraph :=
  { g with nodes := g.nodes.map (fun n => if n.id = id then f n else n) }

/-- `KnowledgeGraph.find_node_by_label`: first node (in insertion order) whose
normalized label matches, optionally filtered by type.  Note: deprecated nodes
are not excluded here, exactly as in the source. -/
def KnowledgeGraph.find_node_by_label (g : KnowledgeGraph) (label : String)
    (node_type : Option NodeType) : Option KnowledgeNode :=
  let normalized := pyStrip (pyLower label)
  g.nodes.find? (fun n =>
    n.label == normalized &&
      (match node_type with
       | none => true
       | some ty => n.type == ty))

/-- `KnowledgeGraph.find_nodes_by_type`. -/
def KnowledgeGraph.find_nodes_by_type (g : KnowledgeGraph) (ty : NodeType) :
    List KnowledgeNode :=
  g.nodes.filter (fun n => n.type == ty)

/-- Python `for src in node.sources: if src not in existing.sources:
existing.sources.append(src)`. -/
def mergeSourceLists (old new : List String) : List String :=
  new.foldl (fun acc s => if acc.contains s then acc else acc ++ [s]) old

/-- Python `for k, v in node.properties.items(): if k not in
existing.properties: existing.properties[k] = v`. -/
def mergeAbsentProps (old new : List (String × String)) :
    List (String × String) :=
  new.foldl (fun acc kv =>
    if acc.any (fun p => p.1 == kv.1) then acc else acc ++ [kv]) old

/-- Python `d[k] = v` on a string-keyed dict. -/
def setProp (props : List (String × String)) (k v : String) :
    List (String × String) :=
  if props.any (fun p => p.1 == k) then
    props.map (fun p => if p.1 = k then (k, v) else p)
  else props ++ [(k, v)]

/-- `KnowledgeGraph.upsert_node`: merge with an existing `(label, type)` node
(reinforce by +0.03, merge sources, merge absent properties) or append a new
node.  Returns the canonical node id.  ChromaDB indexing of new nodes
(`_index_node`) only writes to the vector store and is not modelled. -/
def KnowledgeGraph.upsert_node (g : KnowledgeGraph) (node : KnowledgeNode)
    (now : ℚ) : KnowledgeGraph × String :=
  match g.find_node_by_label node.label (some node.type) with
  | some existing =>
      (g.updateNode existing.id (fun ex =>
        let ex := ex.update_confidence 0.03 now
        let ex := { ex with last_updated := now }
        let ex := { ex with sources := mergeSourceLists ex.sources node.sources }
        { ex with properties := mergeAbsentProps ex.properties node.properties }),
       existing.id)
  | none =>
      ({ g with nodes := g.nodes ++ [node] }, node.id)

/-- `self._g[src][tgt].get("data")` for an existing edge. -/
def KnowledgeGraph.lookupEdge (g : KnowledgeGraph) (k : String × String) :
    Option KnowledgeEdge :=
  (g.edges.find? (fun p => p.1 == k)).map (fun p => p.2)

/-- `self._g.add_edge(src, tgt, data=e)`: overwrite the stored attribute for
the pair if present, else append the pair. -/
def KnowledgeGraph.setEdge (g : KnowledgeGraph) (k : String × String)
    (e : KnowledgeEdge) : KnowledgeGraph :=
  if g.edges.any (fun p => p.1 == k) then
    { g with edges := g.edges.map (fun p => if p.1 = k then (k, e) else p) }
  else
    { g with edges := g.edges ++ [(k, e)] }

/-- `KnowledgeGraph.upsert_edge`: drop orphan edges; reinforce an existing
same-type edge; otherwise `add_edge`, which overwrites any stored edge for the
same `(source, target)` pair. -/
def KnowledgeGraph.upsert_edge (g : KnowledgeGraph) (edge : KnowledgeEdge)
    (now : ℚ) : KnowledgeGraph :=
  if ¬ g.hasNodeId edge.source_id ∨ ¬ g.hasNodeId edge.target_id then
    g
  else
    let k := (edge.source_id, edge.target_id)
    match g.lookupEdge k with
    | some existing =>
        if existing.type = edge.type then
          g.setEdge k (existing.reinforce now)
        else
          g.setEdge k edge
    | none => g.setEdge k edge

/-- `KnowledgeGraph.deprecate_node`: soft delete (`get_node` touches the node
first, then the flags are set and the confidence dropped by 0.4). -/
def KnowledgeGraph.deprecate_node (g : KnowledgeGraph) (id : String)
    (reason : String) (now : ℚ) : KnowledgeGraph :=
  match g.getNodeData id with
  | some _ =>
      g.updateNode id (fun n =>
        let n := n.touch now
        let n := { n with deprecated := true, deprecation_reason := reason }
        n.update_confidence (-0.4) now)
  | none => g

/-- `KnowledgeGraph.get_edges_from`: outgoing edges whose target exists and is
not deprecated; each returned target has been touched by `get_node`. -/
def KnowledgeGraph.get_edges_from (g : KnowledgeGraph) (id : String) (now : ℚ) :
    List (KnowledgeNode × KnowledgeEdge) :=
  g.edges.filterMap (fun p =>
    if p.1.1 = id then
      match g.getNodeData p.1.2 with
      | some tgt => if tgt.deprecated then none else some (tgt.touch now, p.2)
      | none => none
    else none)

/-- `KnowledgeGraph.compute_pagerank`: with fewer than 2 nodes nothing is
computed; otherwise the PageRank vector is recomputed (modelled by bumping the
version marker). -/
def KnowledgeGraph.compute_pagerank (g : KnowledgeGraph) : KnowledgeGraph :=
  if g.nodes.length < 2 then g
  else { g with pagerank_version := g.pagerank_version + 1 }

/-- `KnowledgeGraph.merge_nodes`: merge `merge_id` into `keep_id` —
average confidences, merge sources/properties, redirect edges through
`upsert_edge`, record a SIMILAR_TO edge, deprecate the merged node. -/
def KnowledgeGraph.merge_nodes (g : KnowledgeGraph) (keep_id merge_id : String)
    (now : ℚ) : KnowledgeGraph × String :=
  match g.getNodeData keep_id, g.getNodeData merge_id with
  | some keep0, some merge0 =>
      -- both get_node calls touch their nodes
      let g := g.updateNode keep_id (fun n => n.touch now)
      let g := g.updateNode merge_id (fun n => n.touch now)
      -- merge metadata into the kept node (direct assignment, no clamping)
      let g := g.updateNode keep_id (fun keep =>
        let keep := { keep with
          confidence := (keep.confidence + merge0.confidence) / 2 }
        let keep := { keep with
          sources := mergeSourceLists keep.sources merge0.sources }
        let keep := { keep with
          properties := mergeAbsentProps keep.properties merge0.properties }
        { keep with last_updated := now })
      -- redirect incoming edges (snapshot of in_edges(merge_id))
      let inSnap := g.edges.filter (fun p => p.1.2 = merge_id)
      let g := inSnap.foldl (fun g p =>
        if p.1.1 ≠ keep_id then
          g.upsert_edge
            { source_id := p.1.1, target_id := keep_id, type := p.2.type
              confidence := p.2.confidence, weight := p.2.weight
              properties := p.2.properties, created_at := now
              last_reinforced := now } now
        else g) g
      -- redirect outgoing edges (snapshot taken after the first loop)
      let outSnap := g.edges.filter (fun p => p.1.1 = merge_id)
      let g := outSnap.foldl (fun g p =>
        if p.1.2 ≠ keep_id then
          g.upsert_edge
            { source_id := keep_id, target_id := p.1.2, type := p.2.type
              confidence := p.2.confidence, weight := p.2.weight
              properties := p.2.properties, created_at := now
              last_reinforced := now } now
        else g) g
      -- historical SIMILAR_TO record
      let g := g.upsert_edge
        { source_id := keep_id, target_id := merge_id
          type := EdgeType.similar_to, confidence := 0.9, weight := 1
          properties := [("reason", "merged")], created_at := now
          last_reinforced := now } now
      -- deprecate the merged node
      let g := g.deprecate_node merge_id
        ("merged into " ++ keep0.display_label) now
      (g, keep_id)
  | _, _ => (g, keep_id)

/-- Successor node ids of `id` in the directed edge map. -/
def KnowledgeGraph.successors (g : KnowledgeGraph) (id : String) : List String :=
  (g.edges.filter (fun p => p.1.1 = id)).map (fun p => p.1.2)

/-- Predecessor node ids of `id`. -/
def KnowledgeGraph.predecessors (g : KnowledgeGraph) (id : String) :
    List String :=
  (g.edges.filter (fun p => p.1.2 = id)).map (fun p => p.1.1)

-- Ranking weights from `graph.py`.
def CONFIDENCE_WEIGHT : ℚ := 0.5
def PAGERANK_WEIGHT : ℚ := 0.3
def RECENCY_WEIGHT : ℚ := 0.2

/-- Insert into a list sorted descending by score (used to model Python
`list.sort(key=..., reverse=True)`; the claims do not depend on order). -/
def insertDescByScore (x : ℚ × KnowledgeNode) :
    List (ℚ × KnowledgeNode) → List (ℚ × KnowledgeNode)
  | [] => [x]
  | y :: ys => if x.1 > y.1 then x :: y :: ys else y :: insertDescByScore x ys

def sortDescByScore (l : List (ℚ × KnowledgeNode)) : List (ℚ × KnowledgeNode) :=
  l.foldr insertDescByScore []

/-- `KnowledgeGraph.get_context_for_query` (hybrid retrieval).  The ChromaDB
semantic hit list is the `seeds` argument, the lazily computed PageRank map is
`pagerank : String → Option ℚ` (`.get(nid, 0.01)` is applied here) and the
float `2 ** (-days_idle / 30)` recency decay is the abstract `recencyFn`.
Every scored node was fetched through `get_node`, hence touched at `now`. -/
def KnowledgeGraph.get_context_for_query (g : KnowledgeGraph)
    (seeds : List String) (pagerank : String → Option ℚ)
    (recencyFn : ℚ → ℚ) (now : ℚ) (top_k : Nat) :
    List (KnowledgeNode × List (KnowledgeNode × KnowledgeEdge)) :=
  if g.nodes.isEmpty then []
  else
    -- 2. expand seeds via 1-hop successors and predecessors
    let candidate_ids :=
      (seeds ++ (seeds.filter (fun s => g.hasNodeId s)).flatMap
        (fun s => g.successors s ++ g.predecessors s)).dedup
    -- 3. score every non-deprecated candidate
    let scored := candidate_ids.filterMap (fun nid =>
      match g.getNodeData nid with
      | none => none
      | some node =>
          if node.deprecated then none
          else
            let node := node.touch now
            let days_idle := (now - node.last_accessed) / 86400
            let recency := recencyFn days_idle
            let pr := (pagerank nid).getD 0.01
            let score := CONFIDENCE_WEIGHT * node.confidence
              + PAGERANK_WEIGHT * min (pr * 100) 1
              + RECENCY_WEIGHT * recency
            some (score, node))
    let top_nodes := ((sortDescByScore scored).take top_k).map (fun p => p.2)
    -- 4. attach outgoing edges (deprecated targets are excluded)
    top_nodes.map (fun node => (node, g.get_edges_from node.id now))

/-
`GraphEvolver`, from `knowledge/evolution.py`, and its confidence constants
from `config/constants.py`.
-/

def MIN_CONFIDENCE_THRESHOLD : ℚ := 0.05
def CONFIDENCE_USER_CONFIRM : ℚ := 0.2
def CONFIDENCE_USER_CORRECT : ℚ := -0.4
def CONFIDENCE_CONSISTENT : ℚ := 0.05
def CONFIDENCE_USED_IN_RESPONSE : ℚ := 0.03
def CONFIDENCE_INFERRED : ℚ := 0.3

/-- `GraphEvolver.correct_node`: drop confidence on a node the user corrected
(the `get_node` touch happens first). -/
def correct_node (g : KnowledgeGraph) (node_id : String)
    (correction_note : String) (now : ℚ) : KnowledgeGraph :=
  match g.getNodeData node_id with
  | some _ =>
      g.updateNode node_id (fun n =>
        let n := n.touch now
        let n := n.update_confidence CONFIDENCE_USER_CORRECT now
        if correction_note ≠ ("" : String) then
          { n with properties := setProp n.properties "correction_note" correction_note }
        else n)
  | none => g

/-- `GraphEvolver.confirm_nodes`. -/
def confirm_nodes (g : KnowledgeGraph) (node_ids : List String) (now : ℚ) :
    KnowledgeGraph :=
  node_ids.foldl (fun g nid =>
    match g.getNodeData nid with
    | some _ => g.updateNode nid (fun n =>
        (n.touch now).update_confidence CONFIDENCE_USER_CONFIRM now)
    | none => g) g

/-- `GraphEvolver.boost_used_nodes`. -/
def boost_used_nodes (g : KnowledgeGraph) (node_ids : List String) (now : ℚ) :
    KnowledgeGraph :=
  node_ids.foldl (fun g nid =>
    match g.getNodeData nid with
    | some _ => g.updateNode nid (fun n =>
        (n.touch now).update_confidence CONFIDENCE_USED_IN_RESPONSE now)
    | none => g) g

/-- `GraphEvolver.apply_time_decay`: active nodes idle for more than a day
lose `0.001` confidence per idle day (through the clamped update). -/
def apply_time_decay (g : KnowledgeGraph) (now : ℚ) : KnowledgeGraph :=
  { g with nodes := g.nodes.map (fun n =>
      if ¬ n.deprecated ∧ (now - n.last_accessed) / 86400 > 1 then
        n.update_confidence (-(0.001 * ((now - n.last_accessed) / 86400))) now
      else n) }

/-- `GraphEvolver.prune_low_confidence`: deprecate active nodes strictly below
the threshold.  Returns the updated graph and the number pruned.  (The
formatted reason string interpolates the numeric confidence; the text does not
matter to any claim and is abbreviated.) -/
def prune_low_confidence (g : KnowledgeGraph) (now : ℚ) :
    KnowledgeGraph × Nat :=
  (g.nodes.map (fun n => n.id)).foldl (fun st nid =>
    match st.1.getNodeData nid with
    | some n =>
        if ¬ n.deprecated ∧ n.confidence < MIN_CONFIDENCE_THRESHOLD then
          (st.1.deprecate_node nid "confidence below threshold" now, st.2 + 1)
        else st
    | none => st) (g, 0)

/-
The knowledge extractor, from `knowledge/extractor.py`.  The raw LLM JSON
(after fence stripping / repair) is modelled by `RawExtraction`; optional
dict keys are `Option String`, with the per-key `.get` defaults applied in
`parse_extraction` exactly where the source applies them.
-/

/-- `_NODE_TYPE_MAP` lookup with the `.get(..., NodeType.CONCEPT)` default
applied by the caller. -/
def nodeTypeMap (s : String) : Option NodeType :=
  if s = ("concept" : String) then some NodeType.concept
  else if s = ("entity" : String) then some NodeType.entity
  else if s = ("person" : String) then some NodeType.person
  else if s = ("technology" : String) then some NodeType.technology
  else if s = ("tool" : String) then some NodeType.technology
  else if s = ("framework" : String) then some NodeType.technology
  else if s = ("language" : String) then some NodeType.technology
  else if s = ("library" : String) then some NodeType.technology
  else if s = ("fact" : String) then some NodeType.fact
  else if s = ("preference" : String) then some NodeType.preference
  else if s = ("skill" : String) then some NodeType.skill
  else if s = ("question" : String) then some NodeType.question
  else if s = ("event" : String) then some NodeType.event
  else if s = ("topic" : String) then some NodeType.topic
  else none

/-- `_EDGE_TYPE_MAP` lookup. -/
def edgeTypeMap (s : String) : Option EdgeType :=
  if s = ("is_a" : String) then some EdgeType.is_a
  else if s = ("has_property" : String) then some EdgeType.has_property
  else if s = ("part_of" : String) then some EdgeType.part_of
  else if s = ("relates_to" : String) then some EdgeType.relates_to
  else if s = ("depends_on" : String) then some EdgeType.depends_on
  else if s = ("causes" : String) then some EdgeType.causes
  else if s = ("used_in" : String) then some EdgeType.used_in
  else if s = ("contradicts" : String) then some EdgeType.contradicts
  else if s = ("supports" : String) then some EdgeType.supports
  else if s = ("corrects" : String) then some EdgeType.corrects
  else if s = ("preferred_by" : String) then some EdgeType.preferred_by
  else if s = ("knows" : String) then some EdgeType.knows
  else if s = ("mentions" : String) then some EdgeType.mentioned_in
  else if s = ("mentioned_in" : String) then some EdgeType.mentioned_in
  else if s = ("authored_by" : String) then some EdgeType.authored_by
  else if s = ("similar_to" : String) then some EdgeType.similar_to
  else none

structure RawEntity where
  label : Option String
  type : Option String
  domain : Option String
  properties : List (String × String)

structure RawRelationship where
  from_label : Option String
  to_label : Option String
  type : Option String

structure RawPreference where
  label : Option String
  domain : Option String

structure RawIdentityItem where
  key : Option String
  value : Option String

structure RawCorrection where
  wrong_label : Option String
  correct_label : Option String
  explanation : Option String

/-- The parsed JSON dict handed to `_parse_extraction` (each absent key is an
empty list, matching `raw.get(key, [])`). -/
structure RawExtraction where
  entities : List RawEntity
  relationships : List RawRelationship
  user_preferences : List RawPreference
  user_identity : List RawIdentityItem
  corrections : List RawCorrection
  key_facts : List String
  open_questions : List String

/-- A parsed correction dict `{wrong, correct, explanation}`. -/
structure Correction where
  wrong : String
  correct : String
  explanation : String
deriving DecidableEq

/-- `ExtractionResult` from `knowledge/extractor.py` (the untyped `raw` echo
field is dropped). -/
structure ExtractionResult where
  entities : List KnowledgeNode
  edges : List KnowledgeEdge
  preferences : List KnowledgeNode
  corrections : List Correction
  questions : List KnowledgeNode
  facts : List KnowledgeNode
  source : String

/-- `ExtractionResult.is_empty`. -/
def ExtractionResult.is_empty (r : ExtractionResult) : Bool :=
  r.entities.isEmpty && r.edges.isEmpty && r.preferences.isEmpty &&
    r.corrections.isEmpty && r.questions.isEmpty && r.facts.isEmpty

/-- Fresh uuid supply: id number `k` as a string. -/
def freshId (k : Nat) : String := "uuid-" ++ toString k

/-- `label_to_node[label] = node` (dict assignment). -/
def setLabelNode (m : List (String × KnowledgeNode)) (k : String)
    (v : KnowledgeNode) : List (String × KnowledgeNode) :=
  if m.any (fun p => p.1 == k) then
    m.map (fun p => if p.1 = k then (k, v) else p)
  else m ++ [(k, v)]

/-- One iteration of the `for e in raw.get("entities", [])` loop. -/
def parseEntityStep (source domain : String) (now : ℚ)
    (st : List KnowledgeNode × List (String × KnowledgeNode) × Nat)
    (e : RawEntity) :
    List KnowledgeNode × List (String × KnowledgeNode) × Nat :=
  let label := pyLower (pyStrip (e.label.getD ""))
  if label = ("" : String) ∨ label.length < 2 then st
  else
    let node_type := (nodeTypeMap (pyLower (e.type.getD "concept"))).getD
      NodeType.concept
    let node := KnowledgeNode.create (freshId st.2.2) node_type label
      (e.domain.getD domain) e.properties 0.5 [source] now
    (st.1 ++ [node], setLabelNode st.2.1 label node, st.2.2 + 1)

/-- Entity pass of `_parse_extraction`: returns the nodes, the
`label → node` map (as an association list, later entries overwriting), and
the next fresh-id counter. -/
def parseEntitiesArr (es : List RawEntity) (source domain : String)
    (uid : Nat) (now : ℚ) :
    List KnowledgeNode × List (String × KnowledgeNode) × Nat :=
  es.foldl (parseEntityStep source domain now) ([], [], uid)

/-- One iteration of the `for r in raw.get("relationships", [])` loop. -/
def parseRelStep (label_to_node : List (String × KnowledgeNode)) (now : ℚ)
    (acc : List KnowledgeEdge) (r : RawRelationship) : List KnowledgeEdge :=
  let from_label := pyLower (pyStrip (r.from_label.getD ""))
  let to_label := pyLower (pyStrip (r.to_label.getD ""))
  let rel_type := (edgeTypeMap (pyLower (r.type.getD "relates_to"))).getD
    EdgeType.relates_to
  match (label_to_node.find? (fun p => p.1 == from_label)),
        (label_to_node.find? (fun p => p.1 == to_label)) with
  | some fn, some tn =>
      acc ++ [{ source_id := fn.2.id, target_id := tn.2.id, type := rel_type
                confidence := 0.6, weight := 1, properties := []
                created_at := now, last_reinforced := now }]
  | _, _ => acc

/-- Relationship pass: only edges between two labels present in the entity
map are kept; unknown types default to RELATES_TO. -/
def parseRelationships (rs : List RawRelationship)
    (label_to_node : List (String × KnowledgeNode)) (now : ℚ) :
    List KnowledgeEdge :=
  rs.foldl (parseRelStep label_to_node now) []

/-- One iteration of the `for item in raw.get("user_identity", [])` loop:
name → high-confidence PERSON "user" node; project/goal/occupation/location →
0.8 preference; language/framework/tool → 0.75 technology; anything else →
0.7 preference. -/
def parseIdentityStep (source domain : String) (now : ℚ)
    (st : List KnowledgeNode × List KnowledgeNode × Nat)
    (item : RawIdentityItem) : List KnowledgeNode × List KnowledgeNode × Nat :=
  let key := pyLower (pyStrip (item.key.getD ""))
  let value := pyStrip (item.value.getD "")
  if key = ("" : String) ∨ value = ("" : String) then st
  else if key = ("name" : String) then
    let display_name := pyCapWords value
    let node := KnowledgeNode.create (freshId st.2.2) NodeType.person "user"
      "general" [("name", display_name), ("role", "user")] 0.95 [source] now
    let node := { node with display_label := display_name }
    (st.1 ++ [node], st.2.1, st.2.2 + 1)
  else if key = ("current_project" : String) ∨ key = ("goal" : String) ∨
      key = ("occupation" : String) ∨ key = ("location" : String) then
    let pref_label := key ++ ": " ++ pyLower value
    let node := KnowledgeNode.create (freshId st.2.2) NodeType.preference
      pref_label domain [(key, value)] 0.8 [source] now
    -- display: key.replace("_", " ").title() + ": " + value
    let keyTitle := pyCapWords (String.map (fun c => if c = '_' then ' ' else c) key)
    let node := { node with display_label := keyTitle ++ ": " ++ value }
    (st.1, st.2.1 ++ [node], st.2.2 + 1)
  else if key = ("language" : String) ∨ key = ("framework" : String) ∨
      key = ("tool" : String) then
    let node := KnowledgeNode.create (freshId st.2.2) NodeType.technology
      (pyLower value) "coding" [] 0.75 [source] now
    (st.1 ++ [node], st.2.1, st.2.2 + 1)
  else
    let node := KnowledgeNode.create (freshId st.2.2) NodeType.preference
      (key ++ ": " ++ pyLower value) domain [] 0.7 [source] now
    (st.1, st.2.1 ++ [node], st.2.2 + 1)

/-- User-identity pass of `_parse_extraction`. -/
def parseIdentity (items : List RawIdentityItem) (source domain : String)
    (uid : Nat) (now : ℚ) :
    List KnowledgeNode × List KnowledgeNode × Nat :=
  items.foldl (parseIdentityStep source domain now) ([], [], uid)

/-- One iteration of the `for p in raw.get("user_preferences", [])` loop. -/
def parsePrefStep (source domain : String) (now : ℚ)
    (st : List KnowledgeNode × Nat) (p : RawPreference) :
    List KnowledgeNode × Nat :=
  let label := pyLower (pyStrip (p.label.getD ""))
  if label = ("" : String) then st
  else
    let node := KnowledgeNode.create (freshId st.2) NodeType.preference
      label (p.domain.getD domain) [] 0.75 [source] now
    (st.1 ++ [node], st.2 + 1)

/-- One iteration of the `for fact_text in raw.get("key_facts", [])` loop. -/
def parseFactStep (source domain : String) (now : ℚ)
    (st : List KnowledgeNode × Nat) (t : String) : List KnowledgeNode × Nat :=
  if t = ("" : String) ∨ t.length < 10 then st
  else
    let node := KnowledgeNode.create (freshId st.2) NodeType.fact
      (pyTake 200 (pyLower t)) domain [] 0.6 [source] now
    let node := { node with display_label := pyTake 200 t }
    (st.1 ++ [node], st.2 + 1)

/-- One iteration of the `for q in raw.get("open_questions", [])` loop. -/
def parseQuestionStep (source domain : String) (now : ℚ)
    (st : List KnowledgeNode × Nat) (q : String) : List KnowledgeNode × Nat :=
  if q = ("" : String) then st
  else
    let node := KnowledgeNode.create (freshId st.2) NodeType.question
      (pyTake 200 (pyLower q)) domain [] 0.5 [source] now
    let node := { node with display_label := pyTake 200 q }
    (st.1 ++ [node], st.2 + 1)

/-- `KnowledgeExtractor._parse_extraction`: convert the raw JSON dict into a
typed `ExtractionResult`.  Note: no cap on the number of entities and no
truncation of property values happens here — those limits appear only in the
LLM prompt text. -/
def parse_extraction (raw : RawExtraction) (source domain : String)
    (uid : Nat) (now : ℚ) : ExtractionResult :=
  let ent := parseEntitiesArr raw.entities source domain uid now
  let edges := parseRelationships raw.relationships ent.2.1 now
  let prefs1 := raw.user_preferences.foldl (parsePrefStep source domain now)
    (([] : List KnowledgeNode), ent.2.2)
  let ident := parseIdentity raw.user_identity source domain prefs1.2 now
  let corrections := raw.corrections.foldl (fun acc c =>
    let wrong := pyLower (pyStrip (c.wrong_label.getD ""))
    let correct := pyLower (pyStrip (c.correct_label.getD ""))
    if wrong ≠ ("" : String) ∧ correct ≠ ("" : String) then
      acc ++ [{ wrong := wrong, correct := correct
                explanation := c.explanation.getD "" }]
    else acc) ([] : List Correction)
  let facts := raw.key_facts.foldl (parseFactStep source domain now)
    (([] : List KnowledgeNode), ident.2.2)
  let questions := raw.open_questions.foldl (parseQuestionStep source domain now)
    (([] : List KnowledgeNode), facts.2)
  { entities := ent.1 ++ ident.1
    edges := edges
    preferences := prefs1.1 ++ ident.2.1
    corrections := corrections
    questions := questions.1
    facts := facts.1
    source := source }

/-
`GraphEvolver.integrate`, from `knowledge/evolution.py`.
-/

/-- The summary dict returned by `integrate`. -/
structure IntegrationStats where
  nodes_added : Nat
  nodes_updated : Nat
  edges_added : Nat
  facts_added : Nat
  preferences_added : Nat
  corrections_applied : Nat
deriving DecidableEq

def IntegrationStats.zero : IntegrationStats := ⟨0, 0, 0, 0, 0, 0⟩

/-- State threaded through the entity pass of `integrate`: graph, stats and
the `label → canonical id` map. -/
abbrev IntegrateSt := KnowledgeGraph × IntegrationStats × List (String × String)

/-- Dict assignment `label_to_id[label] = id`. -/
def setLabelId (m : List (String × String)) (k v : String) :
    List (String × String) :=
  if m.any (fun p => p.1 == k) then
    m.map (fun p => if p.1 = k then (k, v) else p)
  else m ++ [(k, v)]

/-- One step of the `for node in result.entities` loop of `integrate`,
including the PERSON "user" special case. -/
def integrateEntity (now : ℚ) (st : IntegrateSt) (node : KnowledgeNode) :
    IntegrateSt :=
  let g := st.1
  let stats := st.2.1
  let label_to_id := st.2.2
  if node.type = NodeType.person ∧ node.label = ("user" : String) then
    match g.find_node_by_label "user" (some node.type) with
    | some existing =>
        -- merge name and properties into the existing user node
        let g := g.updateNode existing.id (fun ex =>
          let ex := ex.update_confidence 0.05 now
          let ex := { ex with properties :=
            node.properties.foldl (fun ps kv => setProp ps kv.1 kv.2) ex.properties }
          if node.display_label ≠ ("" : String) ∧
              node.display_label ≠ ("user" : String) then
            { ex with display_label := node.display_label }
          else ex)
        (g, { stats with nodes_updated := stats.nodes_updated + 1 },
         setLabelId label_to_id node.label existing.id)
    | none =>
        let r := g.upsert_node node now
        (r.1, { stats with nodes_added := stats.nodes_added + 1 },
         setLabelId label_to_id node.label r.2)
  else
    match g.find_node_by_label node.label (some node.type) with
    | some existing =>
        let g := g.updateNode existing.id (fun ex =>
          let ex := ex.update_confidence CONFIDENCE_CONSISTENT now
          let ex := { ex with sources := mergeSourceLists ex.sources node.sources }
          { ex with properties := mergeAbsentProps ex.properties node.properties })
        (g, { stats with nodes_updated := stats.nodes_updated + 1 },
         setLabelId label_to_id node.label existing.id)
    | none =>
        let r := g.upsert_node node now
        (r.1, { stats with nodes_added := stats.nodes_added + 1 },
         setLabelId label_to_id node.label r.2)

/-- One step of the corrections loop of `integrate`. -/
def integrateCorrection (now : ℚ) (st : KnowledgeGraph × IntegrationStats)
    (c : Correction) : KnowledgeGraph × IntegrationStats :=
  let g := st.1
  let stats := st.2
  let wrong_node := g.find_node_by_label c.wrong none
  let correct_node := g.find_node_by_label c.correct none
  let next :=
    match wrong_node with
    | some wn =>
        let note := if c.explanation = ("" : String)
          then ("User corrected this" : String) else c.explanation
        let g := g.updateNode wn.id (fun n =>
          let n := n.update_confidence CONFIDENCE_USER_CORRECT now
          { n with properties := setProp n.properties "correction_note" note })
        (g, { stats with corrections_applied := stats.corrections_applied + 1 })
    | none => (g, stats)
  match correct_node, wrong_node with
  | some cn, some wn =>
      (next.1.upsert_edge
        { source_id := cn.id, target_id := wn.id, type := EdgeType.corrects
          confidence := 0.9, weight := 1
          properties := [("explanation", c.explanation)]
          created_at := now, last_reinforced := now } now,
       next.2)
  | some cn, none =>
      (next.1.updateNode cn.id (fun n =>
        n.update_confidence CONFIDENCE_USER_CONFIRM now), next.2)
  | none, _ => next

/-- One step of the `for edge in result.edges` loop of `integrate`: both
endpoints must resolve (`get_node` touches them) before the edge goes in. -/
def integrateEdgeStep (now : ℚ) (st : KnowledgeGraph × IntegrationStats)
    (e : KnowledgeEdge) : KnowledgeGraph × IntegrationStats :=
  match st.1.getNodeData e.source_id, st.1.getNodeData e.target_id with
  | some _, some _ =>
      let g := st.1.updateNode e.source_id (fun n => n.touch now)
      let g := g.updateNode e.target_id (fun n => n.touch now)
      (g.upsert_edge e now,
       { st.2 with edges_added := st.2.edges_added + 1 })
  | _, _ => st

/-- One step of the `for fact_node in result.facts` loop of `integrate`. -/
def integrateFactStep (now : ℚ) (st : KnowledgeGraph × IntegrationStats)
    (f : KnowledgeNode) : KnowledgeGraph × IntegrationStats :=
  match st.1.find_node_by_label f.label none with
  | none =>
      ((st.1.upsert_node f now).1,
       { st.2 with facts_added := st.2.facts_added + 1 })
  | some existing =>
      (st.1.updateNode existing.id (fun n =>
        n.update_confidence CONFIDENCE_CONSISTENT now), st.2)

/-- One step of the `for pref_node in result.preferences` loop. -/
def integratePrefStep (now : ℚ) (st : KnowledgeGraph × IntegrationStats)
    (p : KnowledgeNode) : KnowledgeGraph × IntegrationStats :=
  match st.1.find_node_by_label p.label (some NodeType.preference) with
  | none =>
      ((st.1.upsert_node p now).1,
       { st.2 with preferences_added := st.2.preferences_added + 1 })
  | some existing =>
      (st.1.updateNode existing.id (fun n =>
        n.update_confidence 0.05 now), st.2)

/-- One step of the `for q_node in result.questions` loop. -/
def integrateQuestionStep (now : ℚ) (g : KnowledgeGraph)
    (q : KnowledgeNode) : KnowledgeGraph :=
  match g.find_node_by_label q.label (some NodeType.question) with
  | none => (g.upsert_node q now).1
  | some _ => g

/-- `GraphEvolver.integrate`: apply a full `ExtractionResult` to the graph
and recompute PageRank after significant change (`nodes_added > 3`). -/
def integrate (g : KnowledgeGraph) (result : ExtractionResult) (now : ℚ) :
    KnowledgeGraph × IntegrationStats :=
  if result.is_empty then (g, IntegrationStats.zero)
  else
    -- 1. add/update entities
    let st1 := result.entities.foldl (integrateEntity now)
      (g, IntegrationStats.zero, ([] : List (String × String)))
    -- 2. add edges (provisional ids; both endpoints must resolve)
    let st2 := result.edges.foldl (integrateEdgeStep now) (st1.1, st1.2.1)
    -- 3. add facts
    let st3 := result.facts.foldl (integrateFactStep now) st2
    -- 4. add preferences
    let st4 := result.preferences.foldl (integratePrefStep now) st3
    -- 5. add questions
    let g5 := result.questions.foldl (integrateQuestionStep now) st4.1
    -- 6. apply corrections
    let st6 := result.corrections.foldl (integrateCorrection now) (g5, st4.2)
    -- recompute PageRank after significant changes
    let gFinal := if st6.2.nodes_added > 3 then st6.1.compute_pagerank else st6.1
    (gFinal, st6.2)

/-
Reflection, from `agent/reflection.py` — the part of `_apply_graph_updates`
that turns `key_learnings` into FACT nodes at the caller-provided confidence.
-/

/-- One entry of `reflection_data["key_learnings"]`: either a dict
`{fact, domain, confidence}` or a bare string. -/
inductive KeyLearning where
  | dict (fact : String) (domain : String) (confidence : ℚ)
  | str (s : String)

/-- One iteration of the `for learning in result.key_learnings` loop. -/
def keyLearningStep (session_id : String) (now : ℚ)
    (st : KnowledgeGraph × Nat × Nat) (l : KeyLearning) :
    KnowledgeGraph × Nat × Nat :=
  let parts := match l with
    | KeyLearning.dict fact domain confidence => (fact, domain, confidence)
    | KeyLearning.str s => (s, ("general" : String), (0.5 : ℚ))
  let fact_text := parts.1
  if fact_text ≠ ("" : String) ∧ fact_text.length > 10 then
    let node := KnowledgeNode.create (freshId st.2.2) NodeType.fact
      (pyTake 200 (pyLower fact_text)) parts.2.1 [] parts.2.2
      [("reflection_" : String) ++ session_id] now
    let node := { node with display_label := pyTake 200 fact_text }
    ((st.1.upsert_node node now).1, st.2.1 + 1, st.2.2 + 1)
  else st

/-- The key-learnings loop of `ReflectionEngine._apply_graph_updates`: each
sufficiently long fact becomes a FACT node upserted at the caller-provided
confidence (no clamping on creation).  Returns the graph and
`facts_added`. -/
def applyKeyLearnings (g : KnowledgeGraph) (learnings : List KeyLearning)
    (session_id : String) (uid : Nat) (now : ℚ) :
    KnowledgeGraph × Nat × Nat :=
  learnings.foldl (keyLearningStep session_id now) (g, 0, uid)

/-
Agent-name handling, from `agent/loop.py`.
-/

def AGENT_NAME : String := "PsychoPortal"

/-- The field names of the `KnowledgeNode` dataclass, in declaration order. -/
def knowledgeNodeFieldNames : List String :=
  ["id", "type", "label", "display_label", "properties", "confidence",
   "created_at", "last_accessed", "last_updated", "access_count", "domain",
   "sources", "embedding_id", "deprecated", "deprecation_reason"]

/-- The dataclass fields without default values: they must be supplied. -/
def knowledgeNodeRequiredFields : List String := ["id", "type", "label"]

/-- The keyword arguments `_store_agent_name` passes to the
`KnowledgeNode(...)` constructor call (`loop.py` lines 304–311). -/
def storeAgentNameKwargs : List String :=
  ["label", "type", "domain", "confidence", "properties", "source"]

/-- Python dataclass `__init__` keyword-call well-formedness: every keyword
names a declared field and every field without a default is supplied;
otherwise the call raises `TypeError`. -/
def dataclassCallOk (fields required kwargs : List String) : Bool :=
  kwargs.all (fun k => fields.contains k) &&
    required.all (fun k => kwargs.contains k)

/-- `AgentLoop._store_agent_name`: builds the preference node and upserts it,
inside `try/except Exception` — a `TypeError` from the constructor call is
swallowed (only a warning is logged) and the graph is left untouched.  With
the keyword set actually passed, the call omits the mandatory `id` field and
uses the unknown keyword `source` (the field is `sources`), so the success
branch below is unreachable. -/
def store_agent_name (g : KnowledgeGraph) (name : String) (now : ℚ) :
    KnowledgeGraph :=
  if dataclassCallOk knowledgeNodeFieldNames knowledgeNodeRequiredFields
      storeAgentNameKwargs then
    -- hypothetical continuation (never reached): upsert the node and save
    (g.upsert_node
      { id := "", type := NodeType.preference
        label := ("agent_name:" : String) ++ pyLower name
        display_label := ("agent_name:" : String) ++ pyLower name
        properties := [("value", name)], confidence := 0.95
        created_at := now, last_accessed := now, last_updated := now
        access_count := 0, domain := "general", sources := []
        embedding_id := "", deprecated := false
        deprecation_reason := "" } now).1
  else g

/-- `AgentLoop._get_agent_name`: the first active `agent_name:` preference
node supplies the name via its `value` property; otherwise the default
`AGENT_NAME`. -/
def get_agent_name (g : KnowledgeGraph) : String :=
  let prefs := g.find_nodes_by_type NodeType.preference
  match prefs.find? (fun p =>
      p.label.startsWith ("agent_name:" : String) && !p.deprecated) with
  | some p => ((p.properties.find? (fun kv => kv.1 == ("value" : String))).map
      (fun kv => kv.2)).getD AGENT_NAME
  | none => AGENT_NAME

/-
The signal detector, from `learning/signal_detector.py`.  The four regex
pattern banks are transcribed into a small regular-expression AST with a
backtracking matcher.  `re.IGNORECASE` is modelled by comparing case-folded
characters; `\b` by tracking the previous character; `$` matches at end of
input (or just before a single trailing newline, as in Python without
`re.MULTILINE`).  Bounded repeats like `.{0,30}` are unrolled by `upTo`.
-/

/-- Regular-expression AST (only the constructs the pattern banks use). -/
inductive RE where
  | eps
  | chr (c : Char)
  | cls (cs : List Char)
  | wsp
  | anyc
  | alt (a b : RE)
  | cat (a b : RE)
  | wb
  | eol
deriving DecidableEq

/-- Python `\w` (ASCII range; the pattern banks and the inputs considered are
ASCII). -/
def isWordChar (c : Char) : Bool :=
  c.isAlpha || c.isDigit || c == '_'

/-- Python `\s` characters. -/
def isPySpace (c : Char) : Bool :=
  c == ' ' || c == '\t' || c == '\n' || c == '\r' ||
    c == Char.ofNat 11 || c == Char.ofNat 12

/-- Is there a word boundary between the previous character and the next? -/
def isBoundary (prev : Option Char) (next : Option Char) : Bool :=
  (prev.elim false isWordChar) != (next.elim false isWordChar)

/-- All ways to match `re` against a prefix of `s`, returning the last
consumed character and the remainder for each. -/
def matchRE : RE → Option Char → List Char → List (Option Char × List Char)
  | RE.eps, prev, s => [(prev, s)]
  | RE.chr _, _, [] => []
  | RE.chr c, _, h :: t =>
      if h.toLower == c.toLower then [(some h, t)] else []
  | RE.cls _, _, [] => []
  | RE.cls cs, _, h :: t =>
      if cs.any (fun c => h.toLower == c.toLower) then [(some h, t)] else []
  | RE.wsp, _, [] => []
  | RE.wsp, _, h :: t => if isPySpace h then [(some h, t)] else []
  | RE.anyc, _, [] => []
  | RE.anyc, _, h :: t => if h == '\n' then [] else [(some h, t)]
  | RE.alt a b, prev, s => matchRE a prev s ++ matchRE b prev s
  | RE.cat a b, prev, s =>
      (matchRE a prev s).flatMap (fun st => matchRE b st.1 st.2)
  | RE.wb, prev, s => if isBoundary prev s.head? then [(prev, s)] else []
  | RE.eol, prev, s =>
      if s.isEmpty || s == ['\n'] then [(prev, s)] else []

/-- `re.search` semantics: the pattern matches starting at some position. -/
def searchFrom (re : RE) : Option Char → List Char → Bool
  | prev, s =>
      !(matchRE re prev s).isEmpty ||
        (match s with
         | [] => false
         | h :: t => searchFrom re (some h) t)

def regex_search (re : RE) (s : String) : Bool :=
  searchFrom re none s.toList

-- Pattern-building helpers.

/-- A literal string (each character matched case-insensitively). -/
def lit (s : String) : RE :=
  s.toList.foldr (fun c acc => RE.cat (RE.chr c) acc) RE.eps

/-- `a|b|c|...` (never used on an empty list). -/
def altL : List RE → RE
  | [] => RE.eps
  | [r] => r
  | r :: rs => RE.alt r (altL rs)

/-- Sequential composition of a list of pieces. -/
def seqL : List RE → RE
  | [] => RE.eps
  | [r] => r
  | r :: rs => RE.cat r (seqL rs)

/-- `r?`. -/
def optR (r : RE) : RE := RE.alt r RE.eps

/-- `r{0,n}`. -/
def upTo : Nat → RE → RE
  | 0, _ => RE.eps
  | n + 1, r => RE.alt RE.eps (RE.cat r (upTo n r))

/-- The apostrophe character (`'`). -/
def apos : Char := Char.ofNat 39

/-- `'?` — Python's `'?` inside the pattern banks. -/
def optApos : RE := optR (RE.chr apos)

/-- `\s` one whitespace character. -/
def ws1 : RE := RE.wsp

/-- `_STRONG_CORRECTION`, transcribed alternative by alternative. -/
def strongCorrectionRE : RE :=
  RE.cat RE.wb (altL
    [ lit "wrong"
    , lit "incorrect"
    , lit "not right"
    , lit "not true"
    , seqL [lit "that", optApos, lit "s ",
        altL [lit "not", lit "wrong", lit "incorrect"]]
    , seqL [lit "you", optApos, lit "re wrong"]
    , seqL [lit "you ", altL [lit "are", lit "were"], lit " ",
        altL [lit "wrong", lit "incorrect", lit "mistaken"]]
    , seqL [lit "that is ",
        altL [lit "wrong", lit "incorrect", lit "not right", lit "false"]]
    , seqL [lit "actually", RE.alt (RE.chr ',') RE.wsp]
    , seqL [lit "actually it", optApos, lit "s"]
    , seqL [lit "actually that", optApos, lit "s"]
    , seqL [lit "no", RE.cls [',', '!'], ws1]
    , seqL [lit "nope", optR (RE.cls [',', '!']), ws1]
    , seqL [lit "that", optApos, lit "s not"]
    , seqL [lit "it", optApos, lit "s not"]
    , lit "it is not"
    , lit "correction:"
    , lit "wrong:"
    , lit "mistake:"
    , lit "fix:"
    , seqL [lit "no", optR (RE.chr ','), lit " the ",
        altL [lit "correct", lit "right", lit "actual"]]
    ])

/-- `_MODERATE_CORRECTION`. -/
def moderateCorrectionRE : RE :=
  RE.cat RE.wb (altL
    [ lit "should be"
    , seqL [lit "the ",
        altL [lit "correct", lit "right", lit "actual", lit "proper"],
        lit " ",
        altL [lit "answer", lit "version", lit "value", lit "way"],
        lit " is"]
    , seqL [lit "you ", altL [lit "meant", lit "said"], lit " ",
        upTo 30 RE.anyc, lit " but it", optApos, lit "s"]
    , seqL [lit "not ", upTo 20 RE.anyc, lit " but ", upTo 20 RE.anyc]
    , seqL [lit "i think you", upTo 20 RE.anyc, lit "wrong"]
    , seqL [lit "that", optApos, lit "s ", optR (lit "a "), lit "mistake"]
    , seqL [lit "let me ", altL [lit "correct", lit "clarify", lit "fix"]]
    ])

/-- `_STRONG_CONFIRMATION`. -/
def strongConfirmationRE : RE :=
  RE.cat RE.wb (altL
    [ seqL [lit "yes", optR (RE.cls [',', '!']), ws1]
    , seqL [lit "yeah", optR (RE.cls [',', '!']), ws1]
    , seqL [lit "yep", optR (RE.cls [',', '!']), ws1]
    , seqL [lit "yup", optR (RE.cls [',', '!']), ws1]
    , seqL [lit "correct", optR (RE.cls [',', '!']), RE.alt ws1 RE.eol]
    , seqL [lit "right", optR (RE.cls [',', '!']), RE.alt ws1 RE.eol]
    , seqL [lit "exactly", optR (RE.cls [',', '!']), RE.alt ws1 RE.eol]
    , seqL [lit "that", optApos, lit "s ",
        altL [lit "right", lit "correct", lit "exactly", lit "it", lit "perfect"]]
    , seqL [lit "you", optApos, lit "re right"]
    , seqL [lit "you ", altL [lit "are", lit "were"], lit " right"]
    , lit "perfect"
    , lit "exactly right"
    , lit "spot on"
    , lit "precisely"
    , seqL [lit "good ",
        altL [lit "job", lit "answer", lit "response", lit "point"]]
    , seqL [altL [lit "that", lit "this"], lit " is ",
        altL [lit "correct", lit "right", lit "accurate"]]
    ])

/-- `_FRUSTRATION`. -/
def frustrationRE : RE :=
  RE.cat RE.wb (altL
    [ seqL [lit "this is ",
        altL [lit "useless", lit "terrible", lit "bad", lit "awful", lit "wrong"]]
    , seqL [lit "you keep ",
        altL [lit "getting", lit "making", lit "saying"]]
    , seqL [lit "how ", altL [lit "many", lit "much"], lit " times"]
    , seqL [optR (lit "not "), lit "again", RE.cls ['!', '?']]
    , seqL [lit "come on", RE.cls ['!', '?']]
    , seqL [lit "seriously", RE.cls ['!', '?']]
    ])

/-- Signal classes, from `learning/signal_detector.py`. -/
inductive SignalType where
  | none | correction | confirmation | frustration | question
deriving DecidableEq

/-- A detected signal (the `snippet` field of the source, which carries
`m.group(0)`, is omitted: no claim refers to it and reproducing Python's
leftmost-first capture order is not needed for any statement below). -/
structure Signal where
  type : SignalType
  confidence : ℚ
deriving DecidableEq

/-- `detect_signal`, matching the source if-chain exactly (including the
inner re-check of the strong-correction bank inside the confirmation branch,
which is dead code because a strong-correction match has already returned). -/
def detect_signal (user_message : String) : Signal :=
  let msg := pyStrip user_message
  if msg.length < 4 then ⟨SignalType.none, 0⟩
  else if regex_search strongCorrectionRE msg then
    ⟨SignalType.correction, 0.85⟩
  else if regex_search moderateCorrectionRE msg then
    ⟨SignalType.correction, 0.65⟩
  else if regex_search strongConfirmationRE msg ∧
      ¬ regex_search strongCorrectionRE msg then
    ⟨SignalType.confirmation, 0.75⟩
  else if regex_search frustrationRE msg then
    ⟨SignalType.frustration, 0.6⟩
  else ⟨SignalType.none, 0⟩

/-
Invariants.  `NodeInv` is the per-node invariant of the spec; `NodeOK now`
additionally records that the node was created no later than the current
clock, which every mutation needs in order to keep `last_updated ≥
created_at` when stamping `last_updated := now`.
-/

def NodeInv (n : KnowledgeNode) : Prop :=
  0.05 ≤ n.confidence ∧ n.confidence ≤ 0.95 ∧ n.created_at ≤ n.last_updated

def NodeOK (now : ℚ) (n : KnowledgeNode) : Prop :=
  NodeInv n ∧ n.created_at ≤ now

def GInv (g : KnowledgeGraph) : Prop := ∀ n ∈ g.nodes, NodeInv n

def GraphOK (now : ℚ) (g : KnowledgeGraph) : Prop :=
  ∀ n ∈ g.nodes, NodeOK now n

/-- The clock premise of every mutation step: no stored node was created in
the future. -/
def ClockOK (g : KnowledgeGraph) (now : ℚ) : Prop :=
  ∀ n ∈ g.nodes, n.created_at ≤ now

theorem graphOK_of (g : KnowledgeGraph) (now : ℚ) (h1 : GInv g)
    (h2 : ClockOK g now) : GraphOK now g :=
  fun n hn => ⟨h1 n hn, h2 n hn⟩

theorem ginv_of_graphOK {g : KnowledgeGraph} {now : ℚ} (h : GraphOK now g) :
    GInv g := fun n hn => (h n hn).1

theorem clamp_lower (x : ℚ) : (0.05 : ℚ) ≤ max 0.05 (min 0.95 x) :=
  le_max_left _ _

theorem clamp_upper (x : ℚ) : max (0.05 : ℚ) (min 0.95 x) ≤ 0.95 :=
  max_le (by norm_num) (min_le_left _ _)

theorem nodeOK_update_confidence {n : KnowledgeNode} {now : ℚ} (δ : ℚ)
    (h : n.created_at ≤ now) : NodeOK now (n.update_confidence δ now) := by
  refine ⟨⟨clamp_lower _, clamp_upper _, ?_⟩, ?_⟩ <;>
    simpa [KnowledgeNode.update_confidence] using h

theorem nodeOK_touch {n : KnowledgeNode} {now t : ℚ} (h : NodeOK now n) :
    NodeOK now (n.touch t) := by
  simpa [KnowledgeNode.touch, NodeOK, NodeInv] using h

/-- `updateNode` keeps `GraphOK` when the update function does. -/
theorem graphOK_updateNode {g : KnowledgeGraph} {now : ℚ} (id : String)
    (f : KnowledgeNode → KnowledgeNode) (hg : GraphOK now g)
    (hf : ∀ n ∈ g.nodes, NodeOK now n → NodeOK now (f n)) :
    GraphOK now (g.updateNode id f) := by
  intro n hn
  simp only [KnowledgeGraph.updateNode, List.mem_map] at hn
  obtain ⟨m, hm, rfl⟩ := hn
  by_cases h : m.id = id
  · simpa [h] using hf m hm (hg m hm)
  · simpa [h] using hg m hm

/-- Appending a well-formed node keeps `GraphOK`. -/
theorem graphOK_append {g : KnowledgeGraph} {now : ℚ} {node : KnowledgeNode}
    (hg : GraphOK now g) (hn : NodeOK now node) :
    GraphOK now { g with nodes := g.nodes ++ [node] } := by
  intro n hmem
  rcases List.mem_append.1 hmem with h | h
  · exact hg n h
  · rcases List.mem_singleton.1 h with rfl; exact hn

theorem getNodeData_mem {g : KnowledgeGraph} {id : String}
    {n : KnowledgeNode} (h : g.getNodeData id = some n) : n ∈ g.nodes :=
  List.mem_of_find?_eq_some h

theorem find_node_by_label_mem {g : KnowledgeGraph} {label : String}
    {t : Option NodeType} {n : KnowledgeNode}
    (h : g.find_node_by_label label t = some n) : n ∈ g.nodes :=
  List.mem_of_find?_eq_some h

theorem setEdge_nodes (g : KnowledgeGraph) (k : String × String)
    (e : KnowledgeEdge) : (g.setEdge k e).nodes = g.nodes := by
  simp only [KnowledgeGraph.setEdge]
  split <;> rfl

theorem upsert_edge_nodes (g : KnowledgeGraph) (e : KnowledgeEdge) (now : ℚ) :
    (g.upsert_edge e now).nodes = g.nodes := by
  simp only [KnowledgeGraph.upsert_edge]
  split
  · rfl
  · split
    · split <;> rw [setEdge_nodes]
    · rw [setEdge_nodes]

theorem graphOK_upsert_edge {g : KnowledgeGraph} {now t : ℚ}
    {e : KnowledgeEdge} (hg : GraphOK now g) :
    GraphOK now (g.upsert_edge e t) := by
  intro n hn
  rw [upsert_edge_nodes] at hn
  exact hg n hn

/-- Membership-aware `foldl` invariant preservation. -/
theorem foldl_preserve {σ α : Type} (P : σ → Prop) (f : σ → α → σ) :
    ∀ (l : List α) (s : σ), (∀ s a, a ∈ l → P s → P (f s a)) → P s →
      P (l.foldl f s)
  | [], _, _, hs => hs
  | a :: l, s, h, hs =>
      foldl_preserve P f l (f s a)
        (fun s b hb => h s b (List.mem_cons_of_mem a hb))
        (h s a (List.mem_cons_self a l) hs)

/-- `upsert_node` preserves `GraphOK` when the incoming node is
well-formed. -/
theorem graphOK_upsert_node {g : KnowledgeGraph} {now : ℚ}
    {node : KnowledgeNode} (hg : GraphOK now g) (hn : NodeOK now node) :
    GraphOK now (g.upsert_node node now).1 := by
  unfold KnowledgeGraph.upsert_node
  cases hfind : g.find_node_by_label node.label (some node.type) with
  | some existing =>
      refine graphOK_updateNode existing.id _ hg ?_
      intro m _ hm
      have h1 : NodeOK now (m.update_confidence 0.03 now) :=
        nodeOK_update_confidence 0.03 hm.2
      simpa [KnowledgeNode.update_confidence, NodeOK, NodeInv]
        using h1
  | none => exact graphOK_append hg hn

theorem graphOK_deprecate {g : KnowledgeGraph} {now : ℚ} (id reason : String)
    (hg : GraphOK now g) : GraphOK now (g.deprecate_node id reason now) := by
  unfold KnowledgeGraph.deprecate_node
  cases h : g.getNodeData id with
  | some n =>
      refine graphOK_updateNode id _ hg ?_
      intro m _ hm
      dsimp only
      exact nodeOK_update_confidence (-0.4)
        (by simpa [KnowledgeNode.touch] using hm.2)
  | none => exact hg

theorem graphOK_correct_node {g : KnowledgeGraph} {now : ℚ}
    (id note : String) (hg : GraphOK now g) :
    GraphOK now (correct_node g id note now) := by
  unfold correct_node
  cases h : g.getNodeData id with
  | some n =>
      refine graphOK_updateNode id _ hg ?_
      intro m _ hm
      have hbase : NodeOK now ((m.touch now).update_confidence
          CONFIDENCE_USER_CORRECT now) :=
        nodeOK_update_confidence _ (by simpa [KnowledgeNode.touch] using hm.2)
      split
      · simpa [NodeOK, NodeInv] using hbase
      · exact hbase
  | none => exact hg

theorem graphOK_confirm_nodes {g : KnowledgeGraph} {now : ℚ}
    (ids : List String) (hg : GraphOK now g) :
    GraphOK now (confirm_nodes g ids now) := by
  unfold confirm_nodes
  refine foldl_preserve (GraphOK now) _ ids g (fun s a _ hs => ?_) hg
  cases h : s.getNodeData a with
  | some n =>
      simp only [h]
      refine graphOK_updateNode a _ hs ?_
      intro m _ hm
      exact nodeOK_update_confidence _ (by simpa [KnowledgeNode.touch] using hm.2)
  | none => simpa [h] using hs

theorem graphOK_boost_used {g : KnowledgeGraph} {now : ℚ}
    (ids : List String) (hg : GraphOK now g) :
    GraphOK now (boost_used_nodes g ids now) := by
  unfold boost_used_nodes
  refine foldl_preserve (GraphOK now) _ ids g (fun s a _ hs => ?_) hg
  cases h : s.getNodeData a with
  | some n =>
      simp only [h]
      refine graphOK_updateNode a _ hs ?_
      intro m _ hm
      exact nodeOK_update_confidence _ (by simpa [KnowledgeNode.touch] using hm.2)
  | none => simpa [h] using hs

theorem graphOK_time_decay {g : KnowledgeGraph} {now : ℚ}
    (hg : GraphOK now g) : GraphOK now (apply_time_decay g now) := by
  unfold apply_time_decay
  intro n hn
  simp only [List.mem_map] at hn
  obtain ⟨m, hm, rfl⟩ := hn
  split
  · exact nodeOK_update_confidence _ (hg m hm).2
  · exact hg m hm

theorem graphOK_prune {g : KnowledgeGraph} {now : ℚ} (hg : GraphOK now g) :
    GraphOK now (prune_low_confidence g now).1 := by
  unfold prune_low_confidence
  have : ∀ (l : List String) (st : KnowledgeGraph × Nat), GraphOK now st.1 →
      GraphOK now (l.foldl (fun st nid =>
        match st.1.getNodeData nid with
        | some n =>
            if ¬ n.deprecated ∧ n.confidence < MIN_CONFIDENCE_THRESHOLD then
              (st.1.deprecate_node nid "confidence below threshold" now, st.2 + 1)
            else st
        | none => st) st).1 := by
    intro l
    induction l with
    | nil => intro st h; exact h
    | cons a l ih =>
        intro st h
        refine ih _ ?_
        cases hdat : st.1.getNodeData a with
        | some n =>
            simp only [hdat]
            split
            · exact graphOK_deprecate a _ h
            · exact h
        | none => simpa [hdat] using h
  exact this _ (g, 0) hg

theorem graphOK_merge_nodes {g : KnowledgeGraph} {now : ℚ}
    (keep_id merge_id : String) (hg : GraphOK now g) :
    GraphOK now (g.merge_nodes keep_id merge_id now).1 := by
  unfold KnowledgeGraph.merge_nodes
  cases hk : g.getNodeData keep_id with
  | none => simpa [hk] using hg
  | some keep0 =>
      cases hm : g.getNodeData merge_id with
      | none => simpa [hk, hm] using hg
      | some merge0 =>
          simp only [hk, hm]
          have hmerge0 : NodeOK now merge0 := hg merge0 (getNodeData_mem hm)
          -- the two touches
          have h1 : GraphOK now (g.updateNode keep_id (fun n => n.touch now)) :=
            graphOK_updateNode _ _ hg (fun m _ hm => nodeOK_touch hm)
          have h2 : GraphOK now ((g.updateNode keep_id (fun n => n.touch now)).updateNode
              merge_id (fun n => n.touch now)) :=
            graphOK_updateNode _ _ h1 (fun m _ hm => nodeOK_touch hm)
          -- the metadata merge
          have h3 := graphOK_updateNode keep_id
            (fun keep =>
              { keep with
                confidence := (keep.confidence + merge0.confidence) / 2
                sources := mergeSourceLists keep.sources merge0.sources
                properties := mergeAbsentProps keep.properties merge0.properties
                last_updated := now }) h2 ?hf
          case hf =>
            intro m _ hmOK
            obtain ⟨⟨hl, hu, _⟩, hc⟩ := hmOK
            obtain ⟨⟨ml, mu, _⟩, _⟩ := hmerge0
            exact ⟨⟨by simpa using by linarith, by simpa using by linarith, hc⟩, hc⟩
          -- the edge redirections and the SIMILAR_TO record touch no node
          refine graphOK_deprecate _ _ ?_
          refine graphOK_upsert_edge ?_
          have hfold2 : ∀ (l : List ((String × String) × KnowledgeEdge))
              (g' : KnowledgeGraph), GraphOK now g' →
              GraphOK now (l.foldl (fun g p =>
                if p.1.2 ≠ keep_id then
                  g.upsert_edge
                    { source_id := keep_id, target_id := p.1.2, type := p.2.type
                      confidence := p.2.confidence, weight := p.2.weight
                      properties := p.2.properties, created_at := now
                      last_reinforced := now } now
                else g) g') := by
            intro l
            induction l with
            | nil => intro g' h; exact h
            | cons a l ih =>
                intro g' h
                refine ih _ ?_
                dsimp only
                split
                · exact graphOK_upsert_edge h
                · exact h
          have hfold1 : ∀ (l : List ((String × String) × KnowledgeEdge))
              (g' : KnowledgeGraph), GraphOK now g' →
              GraphOK now (l.foldl (fun g p =>
                if p.1.1 ≠ keep_id then
                  g.upsert_edge
                    { source_id := p.1.1, target_id := keep_id, type := p.2.type
                      confidence := p.2.confidence, weight := p.2.weight
                      properties := p.2.properties, created_at := now
                      last_reinforced := now } now
                else g) g') := by
            intro l
            induction l with
            | nil => intro g' h; exact h
            | cons a l ih =>
                intro g' h
                refine ih _ ?_
                dsimp only
                split
                · exact graphOK_upsert_edge h
                · exact h
          exact hfold2 _ _ (hfold1 _ _ h3)

/-- Every node built by `KnowledgeNode.create` at the current time is
well-formed as soon as its confidence is in range. -/
theorem nodeOK_create {now : ℚ} (id : String) (ty : NodeType)
    (label domain : String) (props : List (String × String)) (conf : ℚ)
    (sources : List String) (h1 : 0.05 ≤ conf) (h2 : conf ≤ 0.95) :
    NodeOK now (KnowledgeNode.create id ty label domain props conf sources now) := by
  exact ⟨⟨by simpa [KnowledgeNode.create] using h1,
    by simpa [KnowledgeNode.create] using h2,
    by simp [KnowledgeNode.create]⟩, by simp [KnowledgeNode.create]⟩

/-- Changing only the display label keeps a node well-formed. -/
theorem nodeOK_display {n : KnowledgeNode} {now : ℚ} (d : String)
    (h : NodeOK now n) : NodeOK now { n with display_label := d } := by
  simpa [NodeOK, NodeInv] using h

/-- All entity nodes built by the entity pass are well-formed. -/
theorem parseEntitiesArr_nodeOK (es : List RawEntity) (source domain : String)
    (uid : Nat) (now : ℚ) :
    ∀ n ∈ (parseEntitiesArr es source domain uid now).1, NodeOK now n := by
  unfold parseEntitiesArr
  have key : ∀ (l : List RawEntity)
      (st : List KnowledgeNode × List (String × KnowledgeNode) × Nat),
      (∀ n ∈ st.1, NodeOK now n) →
      ∀ n ∈ (l.foldl (parseEntityStep source domain now) st).1, NodeOK now n := by
    intro l
    induction l with
    | nil => intro st h; exact h
    | cons a l ih =>
        intro st h
        refine ih _ ?_
        unfold parseEntityStep
        dsimp only
        split
        · exact h
        · intro n hn
          rcases List.mem_append.1 hn with hmem | hmem
          · exact h n hmem
          · rcases List.mem_singleton.1 hmem with rfl
            exact nodeOK_create _ _ _ _ _ _ _ (by norm_num) (by norm_num)
  exact key es ([], [], uid) (by intro n hn; simp at hn)

/-- All identity-pass nodes (both output lists) are well-formed. -/
theorem parseIdentity_nodeOK (items : List RawIdentityItem)
    (source domain : String) (uid : Nat) (now : ℚ) :
    (∀ n ∈ (parseIdentity items source domain uid now).1, NodeOK now n) ∧
    (∀ n ∈ (parseIdentity items source domain uid now).2.1, NodeOK now n) := by
  unfold parseIdentity
  have key : ∀ (l : List RawIdentityItem)
      (st : List KnowledgeNode × List KnowledgeNode × Nat),
      (∀ n ∈ st.1, NodeOK now n) → (∀ n ∈ st.2.1, NodeOK now n) →
      (∀ n ∈ (l.foldl (parseIdentityStep source domain now) st).1, NodeOK now n) ∧
      (∀ n ∈ (l.foldl (parseIdentityStep source domain now) st).2.1, NodeOK now n) := by
    intro l
    induction l with
    | nil => intro st h1 h2; exact ⟨h1, h2⟩
    | cons a l ih =>
        intro st h1 h2
        have hstep : (∀ n ∈ (parseIdentityStep source domain now st a).1, NodeOK now n) ∧
            (∀ n ∈ (parseIdentityStep source domain now st a).2.1, NodeOK now n) := by
          unfold parseIdentityStep
          dsimp only
          have happ1 : ∀ (node : KnowledgeNode), NodeOK now node →
              (∀ n ∈ st.1 ++ [node], NodeOK now n) := by
            intro node hnode n hn
            rcases List.mem_append.1 hn with hmem | hmem
            · exact h1 n hmem
            · rcases List.mem_singleton.1 hmem with rfl; exact hnode
          have happ2 : ∀ (node : KnowledgeNode), NodeOK now node →
              (∀ n ∈ st.2.1 ++ [node], NodeOK now n) := by
            intro node hnode n hn
            rcases List.mem_append.1 hn with hmem | hmem
            · exact h2 n hmem
            · rcases List.mem_singleton.1 hmem with rfl; exact hnode
          split
          · exact ⟨h1, h2⟩
          · split
            · exact ⟨happ1 _ (nodeOK_display _
                (nodeOK_create _ _ _ _ _ _ _ (by norm_num) (by norm_num))), h2⟩
            · split
              · exact ⟨h1, happ2 _ (nodeOK_display _
                  (nodeOK_create _ _ _ _ _ _ _ (by norm_num) (by norm_num)))⟩
              · split
                · exact ⟨happ1 _
                    (nodeOK_create _ _ _ _ _ _ _ (by norm_num) (by norm_num)), h2⟩
                · exact ⟨h1, happ2 _
                    (nodeOK_create _ _ _ _ _ _ _ (by norm_num) (by norm_num))⟩
        exact ih _ hstep.1 hstep.2
  exact key items ([], [], uid) (by intro n hn; simp at hn)
    (by intro n hn; simp at hn)

/-- All preference nodes built by the user-preferences pass are
well-formed. -/
theorem parsePrefs_nodeOK (ps : List RawPreference) (source domain : String)
    (now : ℚ) :
    ∀ (st : List KnowledgeNode × Nat), (∀ n ∈ st.1, NodeOK now n) →
      ∀ n ∈ (ps.foldl (parsePrefStep source domain now) st).1, NodeOK now n := by
  induction ps with
  | nil => intro st h; exact h
  | cons a l ih =>
      intro st h
      refine ih _ ?_
      unfold parsePrefStep
      dsimp only
      split
      · exact h
      · intro n hn
        rcases List.mem_append.1 hn with hmem | hmem
        · exact h n hmem
        · rcases List.mem_singleton.1 hmem with rfl
          exact nodeOK_create _ _ _ _ _ _ _ (by norm_num) (by norm_num)

/-- All fact nodes built by the key-facts pass are well-formed. -/
theorem parseFacts_nodeOK (ts : List String) (source domain : String)
    (now : ℚ) :
    ∀ (st : List KnowledgeNode × Nat), (∀ n ∈ st.1, NodeOK now n) →
      ∀ n ∈ (ts.foldl (parseFactStep source domain now) st).1, NodeOK now n := by
  induction ts with
  | nil => intro st h; exact h
  | cons a l ih =>
      intro st h
      refine ih _ ?_
      unfold parseFactStep
      dsimp only
      split
      · exact h
      · intro n hn
        rcases List.mem_append.1 hn with hmem | hmem
        · exact h n hmem
        · rcases List.mem_singleton.1 hmem with rfl
          exact nodeOK_display _
            (nodeOK_create _ _ _ _ _ _ _ (by norm_num) (by norm_num))

/-- All question nodes built by the open-questions pass are well-formed. -/
theorem parseQuestions_nodeOK (qs : List String) (source domain : String)
    (now : ℚ) :
    ∀ (st : List KnowledgeNode × Nat), (∀ n ∈ st.1, NodeOK now n) →
      ∀ n ∈ (qs.foldl (parseQuestionStep source domain now) st).1, NodeOK now n := by
  induction qs with
  | nil => intro st h; exact h
  | cons a l ih =>
      intro st h
      refine ih _ ?_
      unfold parseQuestionStep
      dsimp only
      split
      · exact h
      · intro n hn
        rcases List.mem_append.1 hn with hmem | hmem
        · exact h n hmem
        · rcases List.mem_singleton.1 hmem with rfl
          exact nodeOK_display _
            (nodeOK_create _ _ _ _ _ _ _ (by norm_num) (by norm_num))

/-- Every node of a parsed extraction result is well-formed: the extractor
only ever creates nodes at confidences 0.5, 0.6, 0.7, 0.75, 0.8 or 0.95,
with both timestamps equal to the current time. -/
theorem parse_extraction_nodeOK (raw : RawExtraction) (source domain : String)
    (uid : Nat) (now : ℚ) :
    let r := parse_extraction raw source domain uid now
    (∀ n ∈ r.entities, NodeOK now n) ∧ (∀ n ∈ r.facts, NodeOK now n) ∧
    (∀ n ∈ r.preferences, NodeOK now n) ∧ (∀ n ∈ r.questions, NodeOK now n) := by
  intro r
  have hent := parseEntitiesArr_nodeOK raw.entities source domain uid now
  have hid := parseIdentity_nodeOK raw.user_identity source domain
    (raw.user_preferences.foldl (parsePrefStep source domain now)
      ([], (parseEntitiesArr raw.entities source domain uid now).2.2)).2 now
  have hpref := parsePrefs_nodeOK raw.user_preferences source domain now
    ([], (parseEntitiesArr raw.entities source domain uid now).2.2)
    (by intro n hn; simp at hn)
  have hfact := parseFacts_nodeOK raw.key_facts source domain now
    ([], (parseIdentity raw.user_identity source domain
      (raw.user_preferences.foldl (parsePrefStep source domain now)
        ([], (parseEntitiesArr raw.entities source domain uid now).2.2)).2 now).2.2)
    (by intro n hn; simp at hn)
  have hq := parseQuestions_nodeOK raw.open_questions source domain now
    ([], (raw.key_facts.foldl (parseFactStep source domain now)
      ([], (parseIdentity raw.user_identity source domain
        (raw.user_preferences.foldl (parsePrefStep source domain now)
          ([], (parseEntitiesArr raw.entities source domain uid now).2.2)).2 now).2.2)).2)
    (by intro n hn; simp at hn)
  refine ⟨?_, ?_, ?_, ?_⟩
  · intro n hn
    rcases List.mem_append.1 hn with hmem | hmem
    · exact hent n hmem
    · exact hid.1 n hmem
  · intro n hn; exact hfact n hn
  · intro n hn
    rcases List.mem_append.1 hn with hmem | hmem
    · exact hpref n hmem
    · exact hid.2 n hmem
  · intro n hn; exact hq n hn

theorem nodeOK_props {n : KnowledgeNode} {now : ℚ}
    (ps : List (String × String)) (h : NodeOK now n) :
    NodeOK now { n with properties := ps } := by
  simpa [NodeOK, NodeInv] using h

/-- `NodeOK` only looks at confidence, `created_at` and `last_updated`. -/
theorem nodeOK_of_fields {now : ℚ} {n m : KnowledgeNode}
    (hc : m.confidence = n.confidence) (hcr : m.created_at = n.created_at)
    (hlu : m.last_updated = n.last_updated) (h : NodeOK now n) :
    NodeOK now m := by
  obtain ⟨⟨h1, h2, h3⟩, h4⟩ := h
  exact ⟨⟨hc ▸ h1, hc ▸ h2, hcr ▸ hlu ▸ h3⟩, hcr ▸ h4⟩

theorem compute_pagerank_nodes (g : KnowledgeGraph) :
    g.compute_pagerank.nodes = g.nodes := by
  unfold KnowledgeGraph.compute_pagerank
  split <;> rfl

theorem graphOK_integrateEntity {now : ℚ} (st : IntegrateSt)
    (node : KnowledgeNode) (h : GraphOK now st.1) (hn : NodeOK now node) :
    GraphOK now (integrateEntity now st node).1 := by
  unfold integrateEntity
  split
  · cases hfind : st.1.find_node_by_label "user" (some node.type) with
    | some existing =>
        simp only [hfind]
        refine graphOK_updateNode _ _ h ?_
        intro m _ hm
        have hbase : NodeOK now (m.update_confidence 0.05 now) :=
          nodeOK_update_confidence 0.05 hm.2
        have hp := nodeOK_props
          (node.properties.foldl (fun ps kv => setProp ps kv.1 kv.2)
            (m.update_confidence 0.05 now).properties) hbase
        split
        · exact nodeOK_display node.display_label hp
        · exact hp
    | none =>
        simp only [hfind]
        exact graphOK_upsert_node h hn
  · cases hfind : st.1.find_node_by_label node.label (some node.type) with
    | some existing =>
        simp only [hfind]
        refine graphOK_updateNode _ _ h ?_
        intro m _ hm
        exact nodeOK_of_fields rfl rfl rfl
          (nodeOK_update_confidence CONFIDENCE_CONSISTENT hm.2)
    | none =>
        simp only [hfind]
        exact graphOK_upsert_node h hn

theorem graphOK_integrateCorrection {now : ℚ}
    (st : KnowledgeGraph × IntegrationStats) (c : Correction)
    (h : GraphOK now st.1) : GraphOK now (integrateCorrection now st c).1 := by
  unfold integrateCorrection
  dsimp only
  have hupd : ∀ (note id : String), GraphOK now
      (st.1.updateNode id (fun n =>
        let n := n.update_confidence CONFIDENCE_USER_CORRECT now
        { n with properties := setProp n.properties "correction_note" note })) := by
    intro note id
    refine graphOK_updateNode _ _ h ?_
    intro m _ hm
    exact nodeOK_props _ (nodeOK_update_confidence _ hm.2)
  cases hw : st.1.find_node_by_label c.wrong none <;>
    cases hc : st.1.find_node_by_label c.correct none <;>
      simp only [hw, hc]
  · exact h
  · refine graphOK_updateNode _ _ h ?_
    intro m _ hm
    exact nodeOK_update_confidence _ hm.2
  · exact hupd _ _
  · exact graphOK_upsert_edge (hupd _ _)

/-- `integrateEdgeStep` preserves `GraphOK`. -/
theorem graphOK_integrateEdgeStep {now : ℚ}
    (st : KnowledgeGraph × IntegrationStats) (e : KnowledgeEdge)
    (h : GraphOK now st.1) : GraphOK now (integrateEdgeStep now st e).1 := by
  unfold integrateEdgeStep
  cases h1 : st.1.getNodeData e.source_id <;>
    cases h2 : st.1.getNodeData e.target_id <;> simp only [h1, h2]
  · exact h
  · exact h
  · exact h
  · exact graphOK_upsert_edge (graphOK_updateNode _ _
      (graphOK_updateNode _ _ h (fun m _ hm => nodeOK_touch hm))
      (fun m _ hm => nodeOK_touch hm))

/-- `integrateFactStep` preserves `GraphOK` for a well-formed fact node. -/
theorem graphOK_integrateFactStep {now : ℚ}
    (st : KnowledgeGraph × IntegrationStats) (f : KnowledgeNode)
    (h : GraphOK now st.1) (hf : NodeOK now f) :
    GraphOK now (integrateFactStep now st f).1 := by
  unfold integrateFactStep
  cases hfind : st.1.find_node_by_label f.label none <;> simp only [hfind]
  · exact graphOK_upsert_node h hf
  · exact graphOK_updateNode _ _ h
      (fun m _ hm => nodeOK_update_confidence _ hm.2)

/-- `integratePrefStep` preserves `GraphOK` for a well-formed preference. -/
theorem graphOK_integratePrefStep {now : ℚ}
    (st : KnowledgeGraph × IntegrationStats) (p : KnowledgeNode)
    (h : GraphOK now st.1) (hp : NodeOK now p) :
    GraphOK now (integratePrefStep now st p).1 := by
  unfold integratePrefStep
  cases hfind : st.1.find_node_by_label p.label (some NodeType.preference) <;>
    simp only [hfind]
  · exact graphOK_upsert_node h hp
  · exact graphOK_updateNode _ _ h
      (fun m _ hm => nodeOK_update_confidence _ hm.2)

/-- `integrateQuestionStep` preserves `GraphOK` for a well-formed question. -/
theorem graphOK_integrateQuestionStep {now : ℚ} (g : KnowledgeGraph)
    (q : KnowledgeNode) (h : GraphOK now g) (hq : NodeOK now q) :
    GraphOK now (integrateQuestionStep now g q) := by
  unfold integrateQuestionStep
  cases hfind : g.find_node_by_label q.label (some NodeType.question) <;>
    simp only [hfind]
  · exact graphOK_upsert_node h hq
  · exact h

/-- `integrate` preserves `GraphOK` whenever the extraction's nodes are all
well-formed. -/
theorem graphOK_integrate {g : KnowledgeGraph} {now : ℚ}
    (r : ExtractionResult) (hg : GraphOK now g)
    (hent : ∀ n ∈ r.entities, NodeOK now n)
    (hfacts : ∀ n ∈ r.facts, NodeOK now n)
    (hprefs : ∀ n ∈ r.preferences, NodeOK now n)
    (hqs : ∀ n ∈ r.questions, NodeOK now n) :
    GraphOK now (integrate g r now).1 := by
  unfold integrate
  split
  · exact hg
  · dsimp only
    have hbase : GraphOK now (r.corrections.foldl (integrateCorrection now)
        (r.questions.foldl (integrateQuestionStep now)
          (r.preferences.foldl (integratePrefStep now)
            (r.facts.foldl (integrateFactStep now)
              (r.edges.foldl (integrateEdgeStep now)
                ((r.entities.foldl (integrateEntity now)
                  (g, IntegrationStats.zero, ([] : List (String × String)))).1,
                 (r.entities.foldl (integrateEntity now)
                  (g, IntegrationStats.zero,
                    ([] : List (String × String)))).2.1)))).1,
         (r.preferences.foldl (integratePrefStep now)
            (r.facts.foldl (integrateFactStep now)
              (r.edges.foldl (integrateEdgeStep now)
                ((r.entities.foldl (integrateEntity now)
                  (g, IntegrationStats.zero, ([] : List (String × String)))).1,
                 (r.entities.foldl (integrateEntity now)
                  (g, IntegrationStats.zero,
                    ([] : List (String × String)))).2.1)))).2)).1 := by
      refine foldl_preserve
        (fun (st : KnowledgeGraph × IntegrationStats) => GraphOK now st.1)
        (integrateCorrection now) r.corrections _
        (fun s a _ hs => graphOK_integrateCorrection s a hs) ?_
      show GraphOK now (r.questions.foldl (integrateQuestionStep now) _)
      refine foldl_preserve (fun (g' : KnowledgeGraph) => GraphOK now g')
        (integrateQuestionStep now) r.questions _
        (fun s a ha hs => graphOK_integrateQuestionStep s a hs (hqs a ha)) ?_
      show GraphOK now (r.preferences.foldl (integratePrefStep now) _).1
      refine foldl_preserve
        (fun (st : KnowledgeGraph × IntegrationStats) => GraphOK now st.1)
        (integratePrefStep now) r.preferences _
        (fun s a ha hs => graphOK_integratePrefStep s a hs (hprefs a ha)) ?_
      show GraphOK now (r.facts.foldl (integrateFactStep now) _).1
      refine foldl_preserve
        (fun (st : KnowledgeGraph × IntegrationStats) => GraphOK now st.1)
        (integrateFactStep now) r.facts _
        (fun s a ha hs => graphOK_integrateFactStep s a hs (hfacts a ha)) ?_
      show GraphOK now (r.edges.foldl (integrateEdgeStep now) _).1
      refine foldl_preserve
        (fun (st : KnowledgeGraph × IntegrationStats) => GraphOK now st.1)
        (integrateEdgeStep now) r.edges _
        (fun s a _ hs => graphOK_integrateEdgeStep s a hs) ?_
      show GraphOK now ((r.entities.foldl (integrateEntity now)
        (g, IntegrationStats.zero, ([] : List (String × String)))).1,
        (r.entities.foldl (integrateEntity now)
          (g, IntegrationStats.zero, ([] : List (String × String)))).2.1).1
      exact foldl_preserve (fun (st : IntegrateSt) => GraphOK now st.1)
        (integrateEntity now) r.entities
        (g, IntegrationStats.zero, ([] : List (String × String)))
        (fun s a ha hs => graphOK_integrateEntity s a hs (hent a ha)) hg
    split
    · intro n hn
      rw [compute_pagerank_nodes] at hn
      exact hbase n hn
    · exact hbase

/-- `applyKeyLearnings` preserves `GraphOK` when every dict-shaped learning
carries an in-range confidence (bare-string learnings use 0.5). -/
theorem graphOK_applyKeyLearnings {g : KnowledgeGraph} {now : ℚ}
    (learnings : List KeyLearning) (session_id : String) (uid : Nat)
    (hg : GraphOK now g)
    (hconf : ∀ l ∈ learnings, ∀ f d c, l = KeyLearning.dict f d c →
      0.05 ≤ c ∧ c ≤ 0.95) :
    GraphOK now (applyKeyLearnings g learnings session_id uid now).1 := by
  unfold applyKeyLearnings
  refine foldl_preserve (fun (st : KnowledgeGraph × Nat × Nat) =>
    GraphOK now st.1) (keyLearningStep session_id now) learnings
    (g, 0, uid) ?_ hg
  intro s l hl hs
  unfold keyLearningStep
  dsimp only
  split
  · cases l with
    | dict f d c =>
        have hc := hconf _ hl f d c rfl
        exact graphOK_upsert_node hs
          (nodeOK_display _ (nodeOK_create _ _ _ _ _ _ _ hc.1 hc.2))
    | str str =>
        exact graphOK_upsert_node hs
          (nodeOK_display _ (nodeOK_create _ _ _ _ _ _ _ (by norm_num) (by norm_num)))
  · exact hs

/-- `_store_agent_name` never changes the graph: the constructor call it makes
is malformed (no `id`, unknown keyword `source`), raises `TypeError`, and the
surrounding `try/except` swallows the exception. -/
theorem store_agent_name_eq (g : KnowledgeGraph) (name : String) (now : ℚ) :
    store_agent_name g name now = g := by
  unfold store_agent_name
  rfl

/-
Reachable graph states.  Each constructor is one mutation the repository
performs, taken at some instant `now` that is not earlier than any stored
node's creation (the monotone-clock premise `ClockOK`).  Creation-shaped
steps additionally demand in-range confidences where the source leaves the
confidence to the caller — exactly the amendment the reflection path needs.
-/
inductive Reach : KnowledgeGraph → Prop where
  | init : Reach KnowledgeGraph.empty
  | upsertNode (g : KnowledgeGraph) (node : KnowledgeNode) (now : ℚ) :
      Reach g → ClockOK g now →
      0.05 ≤ node.confidence → node.confidence ≤ 0.95 →
      node.created_at ≤ node.last_updated → node.created_at ≤ now →
      Reach (g.upsert_node node now).1
  | upsertEdge (g : KnowledgeGraph) (e : KnowledgeEdge) (now : ℚ) :
      Reach g → Reach (g.upsert_edge e now)
  | deprecate (g : KnowledgeGraph) (id reason : String) (now : ℚ) :
      Reach g → ClockOK g now → Reach (g.deprecate_node id reason now)
  | correct (g : KnowledgeGraph) (id note : String) (now : ℚ) :
      Reach g → ClockOK g now → Reach (correct_node g id note now)
  | confirm (g : KnowledgeGraph) (ids : List String) (now : ℚ) :
      Reach g → ClockOK g now → Reach (confirm_nodes g ids now)
  | boost (g : KnowledgeGraph) (ids : List String) (now : ℚ) :
      Reach g → ClockOK g now → Reach (boost_used_nodes g ids now)
  | decay (g : KnowledgeGraph) (now : ℚ) :
      Reach g → ClockOK g now → Reach (apply_time_decay g now)
  | prune (g : KnowledgeGraph) (now : ℚ) :
      Reach g → ClockOK g now → Reach (prune_low_confidence g now).1
  | mergeNodes (g : KnowledgeGraph) (keep_id merge_id : String) (now : ℚ) :
      Reach g → ClockOK g now → Reach (g.merge_nodes keep_id merge_id now).1
  | integrateExtraction (g : KnowledgeGraph) (raw : RawExtraction)
      (source domain : String) (uid : Nat) (now : ℚ) :
      Reach g → ClockOK g now →
      Reach (integrate g (parse_extraction raw source domain uid now) now).1
  | reflect (g : KnowledgeGraph) (learnings : List KeyLearning)
      (session_id : String) (uid : Nat) (now : ℚ) :
      Reach g → ClockOK g now →
      (∀ l ∈ learnings, ∀ f d c, l = KeyLearning.dict f d c →
        0.05 ≤ c ∧ c ≤ 0.95) →
      Reach (applyKeyLearnings g learnings session_id uid now).1
  | storeName (g : KnowledgeGraph) (name : String) (now : ℚ) :
      Reach g → Reach (store_agent_name g name now)

/-- The graph invariant holds at every reachable state. -/
theorem reach_GInv {g : KnowledgeGraph} (h : Reach g) : GInv g := by
  induction h with
  | init => intro n hn; simp [KnowledgeGraph.empty] at hn
  | upsertNode g node now _ hcl hc1 hc2 ht1 ht2 ih =>
      exact ginv_of_graphOK (graphOK_upsert_node (graphOK_of g now ih hcl)
        ⟨⟨hc1, hc2, ht1⟩, ht2⟩)
  | upsertEdge g e now _ ih =>
      intro n hn
      rw [upsert_edge_nodes] at hn
      exact ih n hn
  | deprecate g id reason now _ hcl ih =>
      exact ginv_of_graphOK (graphOK_deprecate id reason (graphOK_of g now ih hcl))
  | correct g id note now _ hcl ih =>
      exact ginv_of_graphOK (graphOK_correct_node id note (graphOK_of g now ih hcl))
  | confirm g ids now _ hcl ih =>
      exact ginv_of_graphOK (graphOK_confirm_nodes ids (graphOK_of g now ih hcl))
  | boost g ids now _ hcl ih =>
      exact ginv_of_graphOK (graphOK_boost_used ids (graphOK_of g now ih hcl))
  | decay g now _ hcl ih =>
      exact ginv_of_graphOK (graphOK_time_decay (graphOK_of g now ih hcl))
  | prune g now _ hcl ih =>
      exact ginv_of_graphOK (graphOK_prune (graphOK_of g now ih hcl))
  | mergeNodes g keep_id merge_id now _ hcl ih =>
      exact ginv_of_graphOK
        (graphOK_merge_nodes keep_id merge_id (graphOK_of g now ih hcl))
  | integrateExtraction g raw source domain uid now _ hcl ih =>
      have hp := parse_extraction_nodeOK raw source domain uid now
      exact ginv_of_graphOK (graphOK_integrate _ (graphOK_of g now ih hcl)
        hp.1 hp.2.1 hp.2.2.1 hp.2.2.2)
  | reflect g learnings session_id uid now _ hcl hconf ih =>
      exact ginv_of_graphOK (graphOK_applyKeyLearnings learnings session_id uid
        (graphOK_of g now ih hcl) hconf)
  | storeName g name now _ ih =>
      rw [store_agent_name_eq]
      exact ih

/-
Helper lemmas for the claim theorems.
-/

theorem mem_insertDescByScore (x y : ℚ × KnowledgeNode) :
    ∀ (l : List (ℚ × KnowledgeNode)), x ∈ insertDescByScore y l →
      x = y ∨ x ∈ l := by
  intro l
  induction l with
  | nil =>
      intro h
      simpa [insertDescByScore] using h
  | cons a l ih =>
      intro h
      simp only [insertDescByScore] at h
      split at h
      · rcases List.mem_cons.1 h with h | h
        · exact Or.inl h
        · exact Or.inr h
      · rcases List.mem_cons.1 h with h | h
        · exact Or.inr (h ▸ List.mem_cons_self a l)
        · rcases ih h with h' | h'
          · exact Or.inl h'
          · exact Or.inr (List.mem_cons_of_mem a h')

theorem mem_sortDescByScore (x : ℚ × KnowledgeNode) :
    ∀ (l : List (ℚ × KnowledgeNode)), x ∈ sortDescByScore l → x ∈ l := by
  intro l
  induction l with
  | nil =>
      intro h
      simp [sortDescByScore] at h
  | cons a l ih =>
      intro h
      rcases mem_insertDescByScore x a (sortDescByScore l) h with h' | h'
      · exact h' ▸ List.mem_cons_self a l
      · exact List.mem_cons_of_mem a (ih h')

theorem touch_deprecated (n : KnowledgeNode) (t : ℚ) :
    (n.touch t).deprecated = n.deprecated := rfl

/-- Reinforcing an existing node raises its confidence by at least 0.02
provided it sat at or below 0.93. -/
theorem clamp_reinforce {c : ℚ} (h : c ≤ 0.93) :
    c + 0.02 ≤ max 0.05 (min 0.95 (c + 0.03)) := by
  rcases le_total (c + 0.03) 0.95 with h1 | h1
  · rw [min_eq_right h1]
    calc c + 0.02 ≤ c + 0.03 := by linarith
    _ ≤ max 0.05 (c + 0.03) := le_max_right _ _
  · rw [min_eq_left h1]
    calc c + 0.02 ≤ 0.95 := by linarith
    _ ≤ max 0.05 0.95 := le_max_right _ _

/-- Applying the clamped −0.4 correction `k` times to a node. -/
def applyCorrections (n : KnowledgeNode) (now : ℚ) : Nat → KnowledgeNode
  | 0 => n
  | k + 1 => (applyCorrections n now k).update_confidence
      CONFIDENCE_USER_CORRECT now

theorem applyCorrections_lower (n : KnowledgeNode) (now : ℚ) (k : Nat)
    (h0 : 0.05 ≤ n.confidence) :
    0.05 ≤ (applyCorrections n now k).confidence := by
  cases k with
  | zero => exact h0
  | succ k =>
      show (0.05 : ℚ) ≤ max 0.05 (min 0.95 _)
      exact clamp_lower _

theorem applyCorrections_floor (n : KnowledgeNode) (now : ℚ)
    (h : n.confidence ≤ 0.95) :
    (applyCorrections n now 3).confidence = 0.05 := by
  have e1 : (applyCorrections n now 1).confidence =
      max 0.05 (min 0.95 (n.confidence + CONFIDENCE_USER_CORRECT)) := rfl
  have b1 : (applyCorrections n now 1).confidence ≤ 0.55 := by
    rw [e1]
    refine max_le (by norm_num) ?_
    refine le_trans (min_le_right _ _) ?_
    unfold CONFIDENCE_USER_CORRECT
    linarith
  have e2 : (applyCorrections n now 2).confidence =
      max 0.05 (min 0.95 ((applyCorrections n now 1).confidence +
        CONFIDENCE_USER_CORRECT)) := rfl
  have b2 : (applyCorrections n now 2).confidence ≤ 0.15 := by
    rw [e2]
    refine max_le (by norm_num) ?_
    refine le_trans (min_le_right _ _) ?_
    unfold CONFIDENCE_USER_CORRECT
    linarith
  have e3 : (applyCorrections n now 3).confidence =
      max 0.05 (min 0.95 ((applyCorrections n now 2).confidence +
        CONFIDENCE_USER_CORRECT)) := rfl
  rw [e3]
  have hlt : (applyCorrections n now 2).confidence +
      CONFIDENCE_USER_CORRECT ≤ 0.05 := by
    unfold CONFIDENCE_USER_CORRECT
    linarith
  rw [min_eq_right (by linarith : (applyCorrections n now 2).confidence +
    CONFIDENCE_USER_CORRECT ≤ (0.95 : ℚ))]
  exact max_eq_left hlt

/-- On a graph whose nodes all sit at or above the floor, pruning is a
no-op. -/
theorem prune_no_change (g : KnowledgeGraph) (now : ℚ)
    (h : ∀ m ∈ g.nodes, 0.05 ≤ m.confidence) :
    prune_low_confidence g now = (g, 0) := by
  unfold prune_low_confidence
  have key : ∀ (l : List String), l.foldl (fun st nid =>
      match st.1.getNodeData nid with
      | some n =>
          if ¬ n.deprecated ∧ n.confidence < MIN_CONFIDENCE_THRESHOLD then
            (st.1.deprecate_node nid "confidence below threshold" now, st.2 + 1)
          else st
      | none => st) (g, 0) = (g, 0) := by
    intro l
    induction l with
    | nil => rfl
    | cons a l ih =>
        have hstep : (match (g, 0).1.getNodeData a with
            | some n =>
                if ¬ n.deprecated ∧ n.confidence < MIN_CONFIDENCE_THRESHOLD then
                  ((g, 0).1.deprecate_node a "confidence below threshold" now,
                   (g, 0).2 + 1)
                else (g, 0)
            | none => ((g, 0) : KnowledgeGraph × Nat)) = (g, 0) := by
          cases hdat : (g, 0).1.getNodeData a with
          | some n =>
              have hn : 0.05 ≤ n.confidence := h n (getNodeData_mem hdat)
              have : ¬ (¬ n.deprecated ∧
                  n.confidence < MIN_CONFIDENCE_THRESHOLD) := by
                rintro ⟨_, hlt⟩
                unfold MIN_CONFIDENCE_THRESHOLD at hlt
                linarith
              simp only [hdat, if_neg this]
          | none => simp only [hdat]
        show List.foldl _ _ (a :: l) = _
        rw [List.foldl_cons, hstep, ih]
  exact key _

theorem setEdge_length {g : KnowledgeGraph} {k : String × String}
    {e : KnowledgeEdge} (h : g.edges.any (fun p => p.1 == k) = true) :
    (g.setEdge k e).edges.length = g.edges.length := by
  unfold KnowledgeGraph.setEdge
  rw [if_pos h]
  exact List.length_map _ _

theorem lookup_map_overwrite (k : String × String) (e : KnowledgeEdge) :
    ∀ (l : List ((String × String) × KnowledgeEdge)),
      l.any (fun p => p.1 == k) = true →
      (l.map (fun p => if p.1 = k then (k, e) else p)).find?
        (fun p => p.1 == k) = some (k, e) := by
  intro l
  induction l with
  | nil => intro h; simp at h
  | cons a l ih =>
      intro h
      rw [List.map_cons]
      by_cases hk : a.1 = k
      · rw [if_pos hk, List.find?_cons_of_pos _ (by simp)]
      · have h' : l.any (fun p => p.1 == k) = true := by
          simpa [List.any_cons, hk] using h
        rw [if_neg hk, List.find?_cons_of_neg _ (by simp [hk])]
        exact ih h'

theorem lookup_map_other (k k' : String × String) (e : KnowledgeEdge)
    (hne : k' ≠ k) :
    ∀ (l : List ((String × String) × KnowledgeEdge)),
      (l.map (fun p => if p.1 = k then (k, e) else p)).find?
        (fun p => p.1 == k') = l.find? (fun p => p.1 == k') := by
  intro l
  induction l with
  | nil => rfl
  | cons a l ih =>
      rw [List.map_cons]
      by_cases hk : a.1 = k
      · rw [if_pos hk,
          List.find?_cons_of_neg _ (by simp [Ne.symm hne]),
          List.find?_cons_of_neg _ (by simp [hk, Ne.symm hne])]
        exact ih
      · by_cases ha : a.1 = k'
        · rw [if_neg hk, List.find?_cons_of_pos _ (by simp [ha]),
            List.find?_cons_of_pos _ (by simp [ha])]
        · rw [if_neg hk, List.find?_cons_of_neg _ (by simp [ha]),
            List.find?_cons_of_neg _ (by simp [ha])]
          exact ih

/-
String-normalization lemmas: `pyLower ∘ pyStrip` is idempotent, so the
label stored by `KnowledgeNode.create` equals the already-normalized label
computed by the extractor loops.
-/

theorem dropWhile_head_fail (p : Char → Bool) :
    ∀ (l : List Char) (a : Char) (t : List Char),
      l.dropWhile p = a :: t → p a = false := by
  intro l
  induction l with
  | nil => intro a t h; simp at h
  | cons b l ih =>
      intro a t h
      rw [List.dropWhile_cons] at h
      split at h
      · exact ih a t h
      · cases h
        exact Bool.eq_false_iff.2 (by assumption)

theorem dropWhile_dropWhile (p : Char → Bool) (l : List Char) :
    (l.dropWhile p).dropWhile p = l.dropWhile p := by
  cases hd : l.dropWhile p with
  | nil => rfl
  | cons a t =>
      rw [List.dropWhile_cons,
        if_neg (by simp [dropWhile_head_fail p l a t hd])]

theorem stripL_idem (l : List Char) : stripL (stripL l) = stripL l := by
  unfold stripL
  have hA := dropWhile_dropWhile Char.isWhitespace
  set A := l.dropWhile Char.isWhitespace with hAdef
  set Y := A.reverse.dropWhile Char.isWhitespace with hYdef
  have hdropYrev : Y.reverse.dropWhile Char.isWhitespace = Y.reverse := by
    cases hYr : Y.reverse with
    | nil => rfl
    | cons a t =>
        have hYne : Y ≠ [] := by
          intro h0
          rw [h0] at hYr
          simp at hYr
        obtain ⟨w, hw⟩ : ∃ w, w ++ Y = A.reverse :=
          (List.dropWhile_suffix Char.isWhitespace : Y <:+ A.reverse)
        cases hA0 : A with
        | nil =>
            exfalso
            apply hYne
            rw [hYdef, hA0]
            simp
        | cons a0 t0 =>
            have ha0 : Char.isWhitespace a0 = false :=
              dropWhile_head_fail _ l a0 t0 (by rw [← hAdef, hA0])
            have h1 : Y.getLast? = A.reverse.getLast? := by
              rw [← hw]
              cases hY0 : Y with
              | nil => exact absurd hY0 hYne
              | cons y ys => rw [List.getLast?_append_cons]
            have h2 : A.reverse.getLast? = some a0 := by
              rw [hA0]
              simp
            have h3 : Y.reverse.head? = some a := by rw [hYr]; rfl
            have h4 : Y.getLast? = some a := by
              rw [← List.head?_reverse]
              exact h3
            have ha : a = a0 := by
              rw [h1, h2] at h4
              exact (Option.some.inj h4).symm
            rw [List.dropWhile_cons, if_neg (by rw [ha]; simp [ha0])]
  rw [hdropYrev]
  rw [List.reverse_reverse]
  rw [show List.dropWhile Char.isWhitespace Y = Y from by rw [hYdef]; exact hA _]

theorem char_toNat_ofNat_small {n : Nat} (h : n < 55296) :
    (Char.ofNat n).toNat = n := by
  unfold Char.ofNat
  rw [dif_pos (Or.inl h : Nat.isValidChar n)]
  unfold Char.ofNatAux
  show (UInt32.ofNat' n _).toNat = n
  simp [UInt32.ofNat', UInt32.toNat]

theorem toLower_toLower (c : Char) : c.toLower.toLower = c.toLower := by
  unfold Char.toLower
  dsimp only
  by_cases h : c.toNat ≥ 65 ∧ c.toNat ≤ 90
  · rw [if_pos h]
    have hv : (Char.ofNat (c.toNat + 32)).toNat = c.toNat + 32 :=
      char_toNat_ofNat_small (by omega)
    rw [if_neg (by rw [hv]; omega)]
  · rw [if_neg h, if_neg h]

theorem toLower_isWhitespace (c : Char) :
    c.toLower.isWhitespace = c.isWhitespace := by
  unfold Char.toLower
  dsimp only
  by_cases h : c.toNat ≥ 65 ∧ c.toNat ≤ 90
  · rw [if_pos h]
    have hv : (Char.ofNat (c.toNat + 32)).toNat = c.toNat + 32 :=
      char_toNat_ofNat_small (by omega)
    have hwc : c.isWhitespace = false := by
      unfold Char.isWhitespace
      have h9 : ¬ c = '\t' := fun he => by
        have : c.toNat = 9 := by rw [he]; rfl
        omega
      have h10 : ¬ c = '\n' := fun he => by
        have : c.toNat = 10 := by rw [he]; rfl
        omega
      have h13 : ¬ c = '\r' := fun he => by
        have : c.toNat = 13 := by rw [he]; rfl
        omega
      have h32 : ¬ c = ' ' := fun he => by
        have : c.toNat = 32 := by rw [he]; rfl
        omega
      simp [h9, h10, h13, h32]
    have hwc' : (Char.ofNat (c.toNat + 32)).isWhitespace = false := by
      unfold Char.isWhitespace
      have h9 : ¬ Char.ofNat (c.toNat + 32) = '\t' := fun he => by
        have : (Char.ofNat (c.toNat + 32)).toNat = 9 := by rw [he]; rfl
        omega
      have h10 : ¬ Char.ofNat (c.toNat + 32) = '\n' := fun he => by
        have : (Char.ofNat (c.toNat + 32)).toNat = 10 := by rw [he]; rfl
        omega
      have h13 : ¬ Char.ofNat (c.toNat + 32) = '\r' := fun he => by
        have : (Char.ofNat (c.toNat + 32)).toNat = 13 := by rw [he]; rfl
        omega
      have h32 : ¬ Char.ofNat (c.toNat + 32) = ' ' := fun he => by
        have : (Char.ofNat (c.toNat + 32)).toNat = 32 := by rw [he]; rfl
        omega
      simp [h9, h10, h13, h32]
    rw [hwc, hwc']
  · rw [if_neg h]

theorem dropWhile_map_toLower (l : List Char) :
    (l.map Char.toLower).dropWhile Char.isWhitespace =
      (l.dropWhile Char.isWhitespace).map Char.toLower := by
  induction l with
  | nil => rfl
  | cons a l ih =>
      rw [List.map_cons, List.dropWhile_cons, List.dropWhile_cons,
        toLower_isWhitespace]
      by_cases h : a.isWhitespace
      · rw [if_pos h, if_pos h]
        exact ih
      · rw [if_neg h, if_neg h, List.map_cons]

theorem stripL_map_toLower (l : List Char) :
    stripL (l.map Char.toLower) = (stripL l).map Char.toLower := by
  unfold stripL
  rw [dropWhile_map_toLower, ← List.map_reverse, dropWhile_map_toLower,
    ← List.map_reverse]

theorem map_toLower_idem (l : List Char) :
    (l.map Char.toLower).map Char.toLower = l.map Char.toLower := by
  rw [List.map_map]
  exact List.map_congr_left (fun a _ => toLower_toLower a)

/-- Re-normalizing (`.lower().strip()`, as `KnowledgeNode.create` does) a
label that was already normalized by the extractor's `.strip().lower()` is
the identity. -/
theorem pyNorm_idem (s : String) :
    pyStrip (pyLower (pyLower (pyStrip s))) = pyLower (pyStrip s) := by
  show String.mk (stripL (((stripL s.toList).map Char.toLower).map
    Char.toLower)) = String.mk ((stripL s.toList).map Char.toLower)
  rw [map_toLower_idem, stripL_map_toLower, stripL_idem]

/-
Claim theorems.
-/

/-- C1: the spec says a user message matching a name-assignment pattern makes
an `agent_name:x` PREFERENCE node exist at confidence ≥ 0.95 before the LLM
call completes, and subsequent prompts use the new name.  The code cannot do
this: the `KnowledgeNode(...)` constructor call in `_store_agent_name` omits
the mandatory `id` field and passes the unknown keyword `source` (the
dataclass field is `sources`), so it raises `TypeError`; the surrounding
`try/except` swallows it, the graph is unchanged for every detected name, and
`_get_agent_name` keeps returning the default `"PsychoPortal"`. -/
theorem C1_agent_name_never_stored :
    ∀ (g : KnowledgeGraph) (name : String) (now : ℚ),
      dataclassCallOk knowledgeNodeFieldNames knowledgeNodeRequiredFields
        storeAgentNameKwargs = false ∧
      store_agent_name g name now = g ∧
      get_agent_name (store_agent_name KnowledgeGraph.empty name now) =
        AGENT_NAME := by
  intro g name now
  refine ⟨rfl, store_agent_name_eq g name now, ?_⟩
  rw [store_agent_name_eq]
  rfl

/-- C2 (amended): at every reachable state every node satisfies
`0.05 ≤ confidence ≤ 0.95` and `last_updated ≥ created_at`, where creations
with caller-provided confidence (reflection key learnings, direct upserts)
are required to supply an in-range confidence; the Extractor's own nodes need
no such premise (the `Reach.integrateExtraction` constructor takes a raw
extraction and is unconditional). -/
theorem C2_invariant_amended : ∀ (g : KnowledgeGraph), Reach g → GInv g :=
  fun _ h => reach_GInv h

def c2Node : KnowledgeNode :=
  { id := "n1", type := NodeType.concept, label := "python"
    display_label := "Python", properties := [], confidence := 0.5
    created_at := 1, last_accessed := 1, last_updated := 1, access_count := 0
    domain := "general", sources := [], embedding_id := ""
    deprecated := false, deprecation_reason := "" }

/-- Witness for C2: a concrete one-step reachable graph satisfies the
invariant. -/
theorem C2_witness : GInv (KnowledgeGraph.empty.upsert_node c2Node 1).1 :=
  C2_invariant_amended _ (Reach.upsertNode KnowledgeGraph.empty c2Node 1
    Reach.init (by intro n hn; simp [KnowledgeGraph.empty] at hn)
    (by show (0.05 : ℚ) ≤ 0.5; norm_num)
    (by show (0.5 : ℚ) ≤ 0.95; norm_num)
    (by show (1 : ℚ) ≤ 1; norm_num)
    (by show (1 : ℚ) ≤ 1; norm_num))

/-- Counterexample for C2 as stated: a reflection key-learning fact at the
caller-provided confidence 0.99 produces a graph state whose node violates
the `confidence ≤ 0.95` invariant (the code clamps updates but never clamps
creation). -/
theorem C2_counterexample :
    ¬ GInv (applyKeyLearnings KnowledgeGraph.empty
      [KeyLearning.dict ("the user lives in central europe") ("general") 0.99]
      ("session-1") 0 1).1 := by
  intro h
  have hmap : ((applyKeyLearnings KnowledgeGraph.empty
      [KeyLearning.dict ("the user lives in central europe") ("general") 0.99]
      ("session-1") 0 1).1.nodes.map (fun n => n.confidence)) = [(0.99 : ℚ)] :=
    rfl
  have h99 : (0.99 : ℚ) ∈ ((applyKeyLearnings KnowledgeGraph.empty
      [KeyLearning.dict ("the user lives in central europe") ("general") 0.99]
      ("session-1") 0 1).1.nodes.map (fun n => n.confidence)) := by
    rw [hmap]
    exact List.mem_singleton.2 rfl
  obtain ⟨n, hn, hcn⟩ := List.mem_map.1 h99
  have hle := (h n hn).2.1
  rw [hcn] at hle
  norm_num at hle

/-- C3 (amended): the user-correction update (−0.4, clamped) drives any
in-invariant node's confidence to the 0.05 floor within 3 applications, but
never strictly below it — and `prune_low_confidence` deprecates only nodes
STRICTLY below `MIN_CONFIDENCE_THRESHOLD = 0.05`, so corrections alone never
make maintenance deprecate a node. -/
theorem C3_corrections_floor_amended :
    ∀ (n : KnowledgeNode) (now : ℚ), NodeInv n →
      (applyCorrections n now 3).confidence = 0.05 ∧
      (∀ k, 0.05 ≤ (applyCorrections n now k).confidence) ∧
      (∀ (g : KnowledgeGraph) (t : ℚ),
        (∀ m ∈ g.nodes, 0.05 ≤ m.confidence) →
        prune_low_confidence g t = (g, 0)) :=
  fun n now hinv =>
    ⟨applyCorrections_floor n now hinv.2.1,
     fun k => applyCorrections_lower n now k hinv.1,
     fun g t h => prune_no_change g t h⟩

def c3Node : KnowledgeNode :=
  { id := "a", type := NodeType.fact, label := "paris is in italy"
    display_label := "paris is in italy", properties := [], confidence := 0.5
    created_at := 0, last_accessed := 0, last_updated := 0, access_count := 0
    domain := "general", sources := [], embedding_id := ""
    deprecated := false, deprecation_reason := "" }

/-- Witness for C3: a default-confidence node hits the floor after three
corrections and never goes below it. -/
theorem C3_witness :
    (applyCorrections c3Node 9 3).confidence = 0.05 ∧
    0.05 ≤ (applyCorrections c3Node 9 7).confidence :=
  ⟨(C3_corrections_floor_amended c3Node 9
      ⟨by show (0.05 : ℚ) ≤ 0.5; norm_num,
       by show (0.5 : ℚ) ≤ 0.95; norm_num,
       by show (0 : ℚ) ≤ 0; norm_num⟩).1,
   (C3_corrections_floor_amended c3Node 9
      ⟨by show (0.05 : ℚ) ≤ 0.5; norm_num,
       by show (0.5 : ℚ) ≤ 0.95; norm_num,
       by show (0 : ℚ) ≤ 0; norm_num⟩).2.1 7⟩

def c3Graph : KnowledgeGraph := ⟨[c3Node], [], 0⟩

/-- Counterexample for C3 as stated: after three user corrections the node
sits at exactly 0.05 — never BELOW the 0.05 retention threshold — and
`prune_low_confidence` (strict `<`) deprecates nothing: the node stays
active. -/
theorem C3_counterexample :
    ((correct_node (correct_node (correct_node c3Graph ("a") ("") 1)
        ("a") ("") 2) ("a") ("") 3).nodes.map (fun x => x.confidence) =
      [(0.05 : ℚ)]) ∧
    (prune_low_confidence (correct_node (correct_node (correct_node c3Graph
        ("a") ("") 1) ("a") ("") 2) ("a") ("") 3) 4 =
      (correct_node (correct_node (correct_node c3Graph ("a") ("") 1)
        ("a") ("") 2) ("a") ("") 3, 0)) ∧
    ((correct_node (correct_node (correct_node c3Graph ("a") ("") 1)
        ("a") ("") 2) ("a") ("") 3).nodes.map (fun x => x.deprecated) =
      [false]) := by
  have e1 : max (0.05 : ℚ) (min 0.95 ((0.5 : ℚ) + CONFIDENCE_USER_CORRECT)) =
      0.1 := by
    unfold CONFIDENCE_USER_CORRECT
    rw [show (0.5 : ℚ) + -0.4 = 0.1 from by norm_num,
      min_eq_right (by norm_num : (0.1 : ℚ) ≤ 0.95),
      max_eq_right (by norm_num : (0.05 : ℚ) ≤ 0.1)]
  have e2 : max (0.05 : ℚ) (min 0.95 ((0.1 : ℚ) + CONFIDENCE_USER_CORRECT)) =
      0.05 := by
    unfold CONFIDENCE_USER_CORRECT
    rw [show (0.1 : ℚ) + -0.4 = -0.3 from by norm_num,
      min_eq_right (by norm_num : (-0.3 : ℚ) ≤ 0.95),
      max_eq_left (by norm_num : (-0.3 : ℚ) ≤ 0.05)]
  have e3 : max (0.05 : ℚ) (min 0.95 ((0.05 : ℚ) + CONFIDENCE_USER_CORRECT)) =
      0.05 := by
    unfold CONFIDENCE_USER_CORRECT
    rw [show (0.05 : ℚ) + -0.4 = -0.35 from by norm_num,
      min_eq_right (by norm_num : (-0.35 : ℚ) ≤ 0.95),
      max_eq_left (by norm_num : (-0.35 : ℚ) ≤ 0.05)]
  have hmap : (correct_node (correct_node (correct_node c3Graph ("a") ("") 1)
      ("a") ("") 2) ("a") ("") 3).nodes.map (fun x => x.confidence) =
      [max 0.05 (min 0.95 (max 0.05 (min 0.95 (max 0.05 (min 0.95
        ((0.5 : ℚ) + CONFIDENCE_USER_CORRECT)) + CONFIDENCE_USER_CORRECT))
        + CONFIDENCE_USER_CORRECT))] := rfl
  have hconf : (correct_node (correct_node (correct_node c3Graph ("a") ("") 1)
      ("a") ("") 2) ("a") ("") 3).nodes.map (fun x => x.confidence) =
      [(0.05 : ℚ)] := by
    rw [hmap, e1, e2, e3]
  refine ⟨hconf, ?_, rfl⟩
  refine prune_no_change _ 4 ?_
  intro m hm
  have hmem : m.confidence ∈ (correct_node (correct_node (correct_node
      c3Graph ("a") ("") 1) ("a") ("") 2) ("a") ("") 3).nodes.map
      (fun x => x.confidence) := List.mem_map_of_mem _ hm
  rw [hconf, List.mem_singleton] at hmem
  rw [hmem]

/-- C4 (amended): `upsert_edge` inserts an edge only when both endpoint nodes
exist in the graph (otherwise it is a no-op) — but it does NOT check
deprecation; the non-deprecation half of the claim is refuted by
`C4_counterexample`. -/
theorem C4_endpoints_exist_amended :
    ∀ (g : KnowledgeGraph) (e : KnowledgeEdge) (now : ℚ),
      g.upsert_edge e now = g ∨
      (g.hasNodeId e.source_id = true ∧ g.hasNodeId e.target_id = true) := by
  intro g e now
  by_cases h : ¬ g.hasNodeId e.source_id ∨ ¬ g.hasNodeId e.target_id
  · unfold KnowledgeGraph.upsert_edge
    rw [if_pos h]
    exact Or.inl rfl
  · push_neg at h
    exact Or.inr ⟨h.1, h.2⟩

def c4NodeA : KnowledgeNode :=
  { id := "a", type := NodeType.concept, label := "alpha"
    display_label := "alpha", properties := [], confidence := 0.5
    created_at := 0, last_accessed := 0, last_updated := 0, access_count := 0
    domain := "general", sources := [], embedding_id := ""
    deprecated := false, deprecation_reason := "" }

def c4NodeB : KnowledgeNode :=
  { id := "b", type := NodeType.concept, label := "beta"
    display_label := "beta", properties := [], confidence := 0.5
    created_at := 0, last_accessed := 0, last_updated := 0, access_count := 0
    domain := "general", sources := [], embedding_id := ""
    deprecated := true, deprecation_reason := "wrong" }

def c4Graph : KnowledgeGraph := ⟨[c4NodeA, c4NodeB], [], 0⟩

def c4Edge : KnowledgeEdge :=
  { source_id := "a", target_id := "b", type := EdgeType.relates_to
    confidence := 0.6, weight := 1, properties := []
    created_at := 1, last_reinforced := 1 }

/-- Counterexample for C4 as stated: with node "b" deprecated at insert time,
`upsert_edge` still inserts the edge a→b — deprecation of an endpoint is
never checked. -/
theorem C4_counterexample :
    ((c4Graph.upsert_edge c4Edge 1).edges.map (fun p => p.1) =
      [(("a" : String), ("b" : String))]) ∧
    ((c4Graph.getNodeData ("b")).map (fun n => n.deprecated) = some true) := by
  exact ⟨rfl, rfl⟩

/-- C9 (amended): a message (of stripped length ≥ 4) matching the
strong-confirmation bank is classified as a confirmation at confidence 0.75
only when neither the strong-correction NOR the moderate-correction bank
matches; the moderate-correction check runs first, which refutes the claim as
stated (`C9_counterexample`). -/
theorem C9_confirmation_amended :
    ∀ (msg : String), 4 ≤ (pyStrip msg).length →
      regex_search strongConfirmationRE (pyStrip msg) = true →
      regex_search strongCorrectionRE (pyStrip msg) = false →
      regex_search moderateCorrectionRE (pyStrip msg) = false →
      detect_signal msg = ⟨SignalType.confirmation, 0.75⟩ := by
  intro msg hlen hconf hstrong hmod
  unfold detect_signal
  dsimp only
  rw [if_neg (by omega : ¬ (pyStrip msg).length < 4)]
  rw [hstrong, hmod, hconf]
  simp

/-- Witness for C9: "spot on" satisfies every hypothesis and is classified
confirmation at 0.75. -/
theorem C9_witness :
    4 ≤ (pyStrip ("spot on")).length ∧
    detect_signal ("spot on") = ⟨SignalType.confirmation, 0.75⟩ :=
  ⟨by decide, C9_confirmation_amended ("spot on") (by decide) (by decide)
    (by decide) (by decide)⟩

/-- Counterexample for C9 as stated: "yes, the correct answer is 5" contains
the confirmation phrase "yes" (the strong-confirmation regex matches) and
matches no strong-correction pattern, yet `detect_signal` returns a
CORRECTION at 0.65 because the moderate-correction bank ("the correct answer
is") is checked before confirmations. -/
theorem C9_counterexample :
    regex_search strongConfirmationRE
      (pyStrip ("yes, the correct answer is 5")) = true ∧
    regex_search strongCorrectionRE
      (pyStrip ("yes, the correct answer is 5")) = false ∧
    detect_signal ("yes, the correct answer is 5") =
      ⟨SignalType.correction, 0.65⟩ :=
  ⟨by decide, by decide, rfl⟩

/-- C10 (implicit, confirmed): the NetworkX `DiGraph` stores at most one edge
per ordered `(source, target)` pair.  When `upsert_edge` meets a stored edge
of a DIFFERENT type between the same endpoints, `add_edge` silently
overwrites the stored edge's data with the new edge — no second edge, no
reinforcement; all other pairs are untouched. -/
theorem C10_edge_overwrite :
    ∀ (g : KnowledgeGraph) (e ex : KnowledgeEdge) (now : ℚ),
      g.lookupEdge (e.source_id, e.target_id) = some ex →
      ex.type ≠ e.type →
      g.hasNodeId e.source_id = true → g.hasNodeId e.target_id = true →
      (g.upsert_edge e now).lookupEdge (e.source_id, e.target_id) = some e ∧
      (g.upsert_edge e now).edges.length = g.edges.length ∧
      (∀ k, k ≠ (e.source_id, e.target_id) →
        (g.upsert_edge e now).lookupEdge k = g.lookupEdge k) := by
  intro g e ex now hlk htype hs ht
  have hguard : ¬ (¬ g.hasNodeId e.source_id ∨ ¬ g.hasNodeId e.target_id) := by
    simp [hs, ht]
  have hany : g.edges.any
      (fun p => p.1 == (e.source_id, e.target_id)) = true := by
    unfold KnowledgeGraph.lookupEdge at hlk
    cases hfind : g.edges.find? (fun p => p.1 == (e.source_id, e.target_id)) with
    | none => rw [hfind] at hlk; simp at hlk
    | some pair =>
        have hpp := List.find?_some hfind
        exact List.any_eq_true.2 ⟨pair, List.mem_of_find?_eq_some hfind, hpp⟩
  have hupdate : g.upsert_edge e now =
      g.setEdge (e.source_id, e.target_id) e := by
    unfold KnowledgeGraph.upsert_edge
    rw [if_neg hguard]
    dsimp only
    rw [hlk]
    dsimp only
    rw [if_neg htype]
  refine ⟨?_, ?_, ?_⟩
  · rw [hupdate]
    unfold KnowledgeGraph.setEdge KnowledgeGraph.lookupEdge
    rw [if_pos hany]
    dsimp only
    rw [lookup_map_overwrite _ _ _ hany]
    rfl
  · rw [hupdate]
    exact setEdge_length hany
  · intro k hk
    rw [hupdate]
    unfold KnowledgeGraph.setEdge KnowledgeGraph.lookupEdge
    rw [if_pos hany]
    dsimp only
    rw [lookup_map_other _ _ _ hk]

def c10NodeA : KnowledgeNode :=
  { id := "a", type := NodeType.technology, label := "asyncio"
    display_label := "asyncio", properties := [], confidence := 0.5
    created_at := 0, last_accessed := 0, last_updated := 0, access_count := 0
    domain := "coding", sources := [], embedding_id := ""
    deprecated := false, deprecation_reason := "" }

def c10NodeB : KnowledgeNode :=
  { id := "b", type := NodeType.concept, label := "concurrency"
    display_label := "concurrency", properties := [], confidence := 0.5
    created_at := 0, last_accessed := 0, last_updated := 0, access_count := 0
    domain := "coding", sources := [], embedding_id := ""
    deprecated := false, deprecation_reason := "" }

def c10EdgeOld : KnowledgeEdge :=
  { source_id := "a", target_id := "b", type := EdgeType.relates_to
    confidence := 0.6, weight := 1, properties := []
    created_at := 0, last_reinforced := 0 }

def c10EdgeNew : KnowledgeEdge :=
  { source_id := "a", target_id := "b", type := EdgeType.is_a
    confidence := 0.7, weight := 1, properties := []
    created_at := 2, last_reinforced := 2 }

def c10Graph : KnowledgeGraph :=
  ⟨[c10NodeA, c10NodeB], [(("a", "b"), c10EdgeOld)], 0⟩

/-- Witness for C10: upserting an IS_A edge over a stored RELATES_TO edge
between the same endpoints replaces it in place. -/
theorem C10_witness :
    (c10Graph.upsert_edge c10EdgeNew 2).lookupEdge ("a", "b") =
      some c10EdgeNew ∧
    (c10Graph.upsert_edge c10EdgeNew 2).edges.length =
      c10Graph.edges.length :=
  have h := C10_edge_overwrite c10Graph c10EdgeNew c10EdgeOld 2 rfl
    (by decide) rfl rfl
  ⟨h.1, h.2.1⟩

/-- The number of stored nodes carrying a given `(label, type)` pair. -/
def countLabelType (g : KnowledgeGraph) (label : String) (ty : NodeType) :
    Nat :=
  (g.nodes.filter (fun x => x.label == label && x.type == ty)).length

theorem filter_length_map_pred {α : Type} (fx : α → α) (p : α → Bool)
    (h : ∀ x, p (fx x) = p x) :
    ∀ (l : List α), ((l.map fx).filter p).length = (l.filter p).length := by
  intro l
  induction l with
  | nil => rfl
  | cons a l ih =>
      rw [List.map_cons]
      cases hpa : p a with
      | true =>
          rw [List.filter_cons_of_pos (by rw [h]; exact hpa),
            List.filter_cons_of_pos hpa]
          simpa using ih
      | false =>
          rw [List.filter_cons_of_neg (by simp [h, hpa]),
            List.filter_cons_of_neg (by simp [hpa])]
          exact ih

/-- C5 (amended): when no node with the `(label, type)` pair exists,
upserting twice leaves exactly one node with that pair; its confidence
exceeds the first insertion's by at least 0.02 PROVIDED the first insertion's
confidence was at most 0.93 (the +0.03 reinforcement is clamped at 0.95,
refuting the unconditional claim — see `C5_counterexample`). -/
theorem C5_upsert_twice_amended (g : KnowledgeGraph) (n m : KnowledgeNode)
    (now₁ now₂ : ℚ)
    (hfresh : g.find_node_by_label n.label (some n.type) = none)
    (hnorm : pyStrip (pyLower n.label) = n.label)
    (hml : m.label = n.label) (hmt : m.type = n.type)
    (hc : n.confidence ≤ 0.93) :
    countLabelType ((g.upsert_node n now₁).1.upsert_node m now₂).1
      n.label n.type = 1 ∧
    ∃ x ∈ ((g.upsert_node n now₁).1.upsert_node m now₂).1.nodes,
      x.label = n.label ∧ x.type = n.type ∧
      n.confidence + 0.02 ≤ x.confidence := by
  have hpred : ∀ x : KnowledgeNode,
      (x.label == pyStrip (pyLower n.label) &&
        (match (some n.type : Option NodeType) with
         | none => true
         | some ty => x.type == ty)) =
      (x.label == n.label && x.type == n.type) := by
    intro x
    rw [hnorm]
  have hfind_fail : ∀ x ∈ g.nodes,
      ¬ ((x.label == n.label && x.type == n.type) = true) := by
    intro x hx hpx
    have := List.find?_eq_none.1 (by
      unfold KnowledgeGraph.find_node_by_label at hfresh
      exact hfresh) x hx
    rw [hpred x] at this
    exact this hpx
  have hg1 : g.upsert_node n now₁ =
      ({ g with nodes := g.nodes ++ [n] }, n.id) := by
    unfold KnowledgeGraph.upsert_node
    rw [hfresh]
  have hfind2 :
      ({ g with nodes := g.nodes ++ [n] } :
        KnowledgeGraph).find_node_by_label m.label (some m.type) = some n := by
    unfold KnowledgeGraph.find_node_by_label
    dsimp only
    rw [hml, hmt, List.find?_append]
    have hnone : g.nodes.find? (fun x =>
        x.label == pyStrip (pyLower n.label) &&
          (match (some n.type : Option NodeType) with
           | none => true
           | some ty => x.type == ty)) = none := by
      refine List.find?_eq_none.2 ?_
      intro x hx hpx
      rw [hpred x] at hpx
      exact hfind_fail x hx hpx
    rw [hnone]
    simp [hnorm]
  rw [hg1]
  dsimp only
  unfold KnowledgeGraph.upsert_node
  rw [hfind2]
  dsimp only
  set f : KnowledgeNode → KnowledgeNode := fun ex =>
    { ex.update_confidence 0.03 now₂ with
      last_updated := now₂
      sources := mergeSourceLists (ex.update_confidence 0.03 now₂).sources
        m.sources
      properties := mergeAbsentProps
        (ex.update_confidence 0.03 now₂).properties m.properties } with hf
  constructor
  · unfold countLabelType KnowledgeGraph.updateNode
    dsimp only
    rw [filter_length_map_pred _ _ (by
      intro x
      by_cases hx : x.id = n.id
      · rw [if_pos hx]; rfl
      · rw [if_neg hx])]
    rw [List.filter_append]
    rw [List.filter_eq_nil_iff.2 (fun x hx => by
      intro hpx
      exact hfind_fail x hx hpx)]
    simp
  · refine ⟨f n, ?_, ?_, ?_, ?_⟩
    · show _ ∈ (KnowledgeGraph.updateNode _ n.id _).nodes
      unfold KnowledgeGraph.updateNode
      dsimp only
      simp
    · rfl
    · rfl
    · show n.confidence + 0.02 ≤ max 0.05 (min 0.95 (n.confidence + 0.03))
      exact clamp_reinforce hc

def c5Node1 : KnowledgeNode :=
  { id := "f1", type := NodeType.fact, label := "the sky is blue"
    display_label := "the sky is blue", properties := [], confidence := 0.5
    created_at := 1, last_accessed := 1, last_updated := 1, access_count := 0
    domain := "general", sources := ["s1"], embedding_id := ""
    deprecated := false, deprecation_reason := "" }

def c5Node2 : KnowledgeNode :=
  { id := "f2", type := NodeType.fact, label := "the sky is blue"
    display_label := "the sky is blue", properties := [], confidence := 0.5
    created_at := 2, last_accessed := 2, last_updated := 2, access_count := 0
    domain := "general", sources := ["s2"], embedding_id := ""
    deprecated := false, deprecation_reason := "" }

/-- Witness for C5: a fact upserted at 0.5 and reinforced once ends strictly
higher by at least 0.02, with exactly one node for the pair. -/
theorem C5_witness :
    countLabelType
      ((KnowledgeGraph.empty.upsert_node c5Node1 1).1.upsert_node c5Node2 2).1
      ("the sky is blue") NodeType.fact = 1 ∧
    ∃ x ∈ ((KnowledgeGraph.empty.upsert_node c5Node1 1).1.upsert_node
        c5Node2 2).1.nodes,
      x.label = ("the sky is blue") ∧ x.type = NodeType.fact ∧
      (0.5 : ℚ) + 0.02 ≤ x.confidence :=
  C5_upsert_twice_amended KnowledgeGraph.empty c5Node1 c5Node2 1 2 rfl
    (by decide) rfl rfl (by show (0.5 : ℚ) ≤ 0.93; norm_num)

def c5HiNode1 : KnowledgeNode :=
  { id := "h1", type := NodeType.fact, label := "the user name is dana"
    display_label := "the user name is dana", properties := []
    confidence := 0.95
    created_at := 1, last_accessed := 1, last_updated := 1, access_count := 0
    domain := "general", sources := ["s1"], embedding_id := ""
    deprecated := false, deprecation_reason := "" }

def c5HiNode2 : KnowledgeNode :=
  { id := "h2", type := NodeType.fact, label := "the user name is dana"
    display_label := "the user name is dana", properties := []
    confidence := 0.95
    created_at := 2, last_accessed := 2, last_updated := 2, access_count := 0
    domain := "general", sources := ["s2"], embedding_id := ""
    deprecated := false, deprecation_reason := "" }

/-- Counterexample for C5 as stated: a node first inserted at confidence 0.95
(as reflection facts and user-identity nodes can be) is reinforced to
`min 0.95 (0.95 + 0.03) = 0.95` — not strictly greater, and not greater by
0.02. -/
theorem C5_counterexample :
    ((KnowledgeGraph.empty.upsert_node c5HiNode1 1).1.nodes.map
      (fun x => x.confidence) = [(0.95 : ℚ)]) ∧
    (((KnowledgeGraph.empty.upsert_node c5HiNode1 1).1.upsert_node
        c5HiNode2 2).1.nodes.map (fun x => x.confidence) = [(0.95 : ℚ)]) := by
  constructor
  · rfl
  · have hstep : ((KnowledgeGraph.empty.upsert_node c5HiNode1 1).1.upsert_node
        c5HiNode2 2).1.nodes.map (fun x => x.confidence) =
        [max 0.05 (min 0.95 ((0.95 : ℚ) + 0.03))] := rfl
    rw [hstep, show max (0.05 : ℚ) (min 0.95 ((0.95 : ℚ) + 0.03)) =
      (0.95 : ℚ) from by
        rw [show (0.95 : ℚ) + 0.03 = 0.98 from by norm_num,
          min_eq_left (by norm_num : (0.95 : ℚ) ≤ 0.98),
          max_eq_right (by norm_num : (0.05 : ℚ) ≤ 0.95)]]

/-- Every node the entity pass appends comes out of the current raw entity,
with normalized label (≥ 2 chars) and alias-mapped type. -/
theorem parseEntityStep_from (source domain : String) (now : ℚ)
    (st : List KnowledgeNode × List (String × KnowledgeNode) × Nat)
    (a : RawEntity) :
    ∀ n ∈ (parseEntityStep source domain now st a).1,
      n ∈ st.1 ∨
        (n.label = pyLower (pyStrip (a.label.getD "")) ∧
         2 ≤ n.label.length ∧
         n.type = (nodeTypeMap (pyLower (a.type.getD "concept"))).getD
           NodeType.concept) := by
  intro n hn
  unfold parseEntityStep at hn
  dsimp only at hn
  split at hn
  · exact Or.inl hn
  · next hguard =>
      rcases List.mem_append.1 hn with h1 | h2
      · exact Or.inl h1
      · have hn2 := List.mem_singleton.1 h2
        have hlab : n.label = pyLower (pyStrip (a.label.getD "")) := by
          rw [hn2]; exact pyNorm_idem _
        have hty : n.type = (nodeTypeMap (pyLower (a.type.getD "concept"))).getD
            NodeType.concept := by
          rw [hn2]; rfl
        refine Or.inr ⟨hlab, ?_, hty⟩
        rw [hlab]
        push_neg at hguard
        exact hguard.2

/-- Fold form of `parseEntityStep_from`. -/
theorem parseEntities_from (source domain : String) (now : ℚ) :
    ∀ (l : List RawEntity)
      (st : List KnowledgeNode × List (String × KnowledgeNode) × Nat),
      ∀ n ∈ (l.foldl (parseEntityStep source domain now) st).1,
        n ∈ st.1 ∨ ∃ e ∈ l,
          n.label = pyLower (pyStrip (e.label.getD "")) ∧
          2 ≤ n.label.length ∧
          n.type = (nodeTypeMap (pyLower (e.type.getD "concept"))).getD
            NodeType.concept := by
  intro l
  induction l with
  | nil => intro st n hn; exact Or.inl hn
  | cons a l ih =>
      intro st n hn
      rw [List.foldl_cons] at hn
      rcases ih (parseEntityStep source domain now st a) n hn with h | ⟨e, he, hP⟩
      · rcases parseEntityStep_from source domain now st a n h with h1 | hP
        · exact Or.inl h1
        · exact Or.inr ⟨a, List.mem_cons_self a l, hP⟩
      · exact Or.inr ⟨e, List.mem_cons_of_mem a he, hP⟩

/-- Every edge the relationship pass appends gets its type from the alias
table applied to the current raw relationship. -/
theorem parseRel_from (label_to_node : List (String × KnowledgeNode))
    (now : ℚ) :
    ∀ (l : List RawRelationship) (acc : List KnowledgeEdge),
      ∀ ed ∈ l.foldl (parseRelStep label_to_node now) acc,
        ed ∈ acc ∨ ∃ r ∈ l,
          ed.type = (edgeTypeMap (pyLower (r.type.getD "relates_to"))).getD
            EdgeType.relates_to := by
  intro l
  induction l with
  | nil => intro acc ed hed; exact Or.inl hed
  | cons a l ih =>
      intro acc ed hed
      rw [List.foldl_cons] at hed
      rcases ih (parseRelStep label_to_node now acc a) ed hed with h | ⟨r, hr, hP⟩
      · unfold parseRelStep at h
        dsimp only at h
        split at h
        · rcases List.mem_append.1 h with h1 | h2
          · exact Or.inl h1
          · have he2 := List.mem_singleton.1 h2
            refine Or.inr ⟨a, List.mem_cons_self a l, ?_⟩
            rw [he2]
        · exact Or.inl h
      · exact Or.inr ⟨r, List.mem_cons_of_mem a hr, hP⟩

/-- C6, amended: of the four claimed per-field parsing constraints, the code
enforces exactly two — every parsed entity node carries a
`.strip().lower()`-normalized label of length ≥ 2 and a type mapped through
`_NODE_TYPE_MAP` (default CONCEPT), and every parsed edge has its type mapped
through `_EDGE_TYPE_MAP` (default RELATES_TO).  The claimed cap of 8 entities
and 30-character truncation of property values appear only in the LLM prompt
text, not in `_parse_extraction` — see the counterexample. -/
theorem C6_parse_constraints_amended (raw : RawExtraction)
    (source domain : String) (uid : Nat) (now : ℚ) :
    (∀ n ∈ (parseEntitiesArr raw.entities source domain uid now).1,
      ∃ e ∈ raw.entities,
        n.label = pyLower (pyStrip (e.label.getD "")) ∧
        2 ≤ n.label.length ∧
        n.type = (nodeTypeMap (pyLower (e.type.getD "concept"))).getD
          NodeType.concept) ∧
    (∀ ed ∈ (parse_extraction raw source domain uid now).edges,
      ∃ r ∈ raw.relationships,
        ed.type = (edgeTypeMap (pyLower (r.type.getD "relates_to"))).getD
          EdgeType.relates_to) := by
  constructor
  · intro n hn
    rcases parseEntities_from source domain now raw.entities
      ([], [], uid) n hn with h | hP
    · simp at h
    · exact hP
  · intro ed hed
    have hed2 : ed ∈ raw.relationships.foldl
        (parseRelStep (parseEntitiesArr raw.entities source domain uid now).2.1
          now) [] := hed
    rcases parseRel_from
      (parseEntitiesArr raw.entities source domain uid now).2.1 now
      raw.relationships [] ed hed2 with h | hP
    · simp at h
    · exact hP

def c6DemoRaw : RawExtraction :=
  { entities := [{ label := some "  Python  ", type := some "tool"
                   domain := none, properties := [] },
                 { label := some "Django", type := some "framework"
                   domain := none, properties := [] }]
    relationships := [{ from_label := some "Django", to_label := some "Python"
                        type := some "uses" }]
    user_preferences := [], user_identity := [], corrections := []
    key_facts := [], open_questions := [] }

/-- C6 witness: on a concrete extraction both halves of the amended theorem
apply to an actual parsed node and edge. -/
theorem C6_witness :
    (∃ n ∈ (parseEntitiesArr c6DemoRaw.entities ("chat") ("coding") 0 1).1,
      ∃ e ∈ c6DemoRaw.entities,
        n.label = pyLower (pyStrip (e.label.getD "")) ∧
        2 ≤ n.label.length ∧
        n.type = (nodeTypeMap (pyLower (e.type.getD "concept"))).getD
          NodeType.concept) ∧
    (∃ ed ∈ (parse_extraction c6DemoRaw ("chat") ("coding") 0 1).edges,
      ∃ r ∈ c6DemoRaw.relationships,
        ed.type = (edgeTypeMap (pyLower (r.type.getD "relates_to"))).getD
          EdgeType.relates_to) := by
  have hlen1 : (parseEntitiesArr c6DemoRaw.entities ("chat") ("coding")
      0 1).1.length = 2 := rfl
  have hlen2 : (parse_extraction c6DemoRaw ("chat") ("coding")
      0 1).edges.length = 1 := rfl
  obtain ⟨n, hn⟩ := List.exists_mem_of_ne_nil
    (parseEntitiesArr c6DemoRaw.entities ("chat") ("coding") 0 1).1
    (fun h => by rw [h] at hlen1; simp at hlen1)
  obtain ⟨ed, hed⟩ := List.exists_mem_of_ne_nil
    (parse_extraction c6DemoRaw ("chat") ("coding") 0 1).edges
    (fun h => by rw [h] at hlen2; simp at hlen2)
  exact ⟨⟨n, hn,
      (C6_parse_constraints_amended c6DemoRaw ("chat") ("coding") 0 1).1 n hn⟩,
    ⟨ed, hed,
      (C6_parse_constraints_amended c6DemoRaw ("chat") ("coding") 0 1).2 ed hed⟩⟩

def c6LongVal : String := "0123456789012345678901234567890123456789"

def c6Ent (lbl : String) : RawEntity :=
  { label := some lbl, type := none, domain := none, properties := [] }

def c6Raw9 : RawExtraction :=
  { entities := { label := some "aa", type := none, domain := none
                  properties := [("note", c6LongVal)] } ::
      (["bb", "cc", "dd", "ee", "ff", "gg", "hh", "ii"].map c6Ent)
    relationships := [], user_preferences := [], user_identity := []
    corrections := [], key_facts := [], open_questions := [] }

/-- Counterexample for C6 as stated: an LLM response with 9 entities and a
40-character property value parses into 9 entity nodes (no cap at 8) whose
first node keeps the full 40-character property value (no truncation to
30). -/
theorem C6_counterexample :
    (parse_extraction c6Raw9 ("chat") ("general") 0 1).entities.length = 9 ∧
    ((parse_extraction c6Raw9 ("chat") ("general") 0 1).entities.map
      (fun n => n.properties.map (fun kv => kv.2.length))) =
      [[40], [], [], [], [], [], [], [], []] :=
  ⟨rfl, rfl⟩

theorem updateNode_pagerank (g : KnowledgeGraph) (id : String)
    (f : KnowledgeNode → KnowledgeNode) :
    (g.updateNode id f).pagerank_version = g.pagerank_version := rfl

theorem updateNode_length (g : KnowledgeGraph) (id : String)
    (f : KnowledgeNode → KnowledgeNode) :
    (g.updateNode id f).nodes.length = g.nodes.length := by
  simp [KnowledgeGraph.updateNode]

theorem upsert_node_pagerank (g : KnowledgeGraph) (n : KnowledgeNode)
    (now : ℚ) :
    (g.upsert_node n now).1.pagerank_version = g.pagerank_version := by
  unfold KnowledgeGraph.upsert_node
  cases hfind : g.find_node_by_label n.label (some n.type) <;>
    simp only [hfind]
  all_goals rfl

theorem upsert_node_len_ge (g : KnowledgeGraph) (n : KnowledgeNode)
    (now : ℚ) :
    g.nodes.length ≤ (g.upsert_node n now).1.nodes.length := by
  unfold KnowledgeGraph.upsert_node
  cases hfind : g.find_node_by_label n.label (some n.type) <;>
    simp only [hfind]
  · simp
  · simp [KnowledgeGraph.updateNode]

theorem setEdge_pagerank (g : KnowledgeGraph) (k : String × String)
    (e : KnowledgeEdge) :
    (g.setEdge k e).pagerank_version = g.pagerank_version := by
  simp only [KnowledgeGraph.setEdge]
  split <;> rfl

theorem upsert_edge_pagerank (g : KnowledgeGraph) (e : KnowledgeEdge)
    (now : ℚ) :
    (g.upsert_edge e now).pagerank_version = g.pagerank_version := by
  simp only [KnowledgeGraph.upsert_edge]
  split
  · rfl
  · split
    · split <;> rw [setEdge_pagerank]
    · rw [setEdge_pagerank]

theorem upsert_edge_updateNode_len (g : KnowledgeGraph) (id : String)
    (f : KnowledgeNode → KnowledgeNode) (e : KnowledgeEdge) (now : ℚ) :
    ((g.updateNode id f).upsert_edge e now).nodes.length = g.nodes.length := by
  rw [upsert_edge_nodes, updateNode_length]

theorem edgeTouch_len (g : KnowledgeGraph) (i : String)
    (f1 : KnowledgeNode → KnowledgeNode) (j : String)
    (f2 : KnowledgeNode → KnowledgeNode) (e : KnowledgeEdge) (now : ℚ) :
    (((g.updateNode i f1).updateNode j f2).upsert_edge e now).nodes.length
      = g.nodes.length := by
  rw [upsert_edge_nodes, updateNode_length, updateNode_length]

/-- The entity pass keeps the PageRank version and never adds more to
`nodes_added` than it adds actual nodes. -/
theorem integrateEntity_version (now : ℚ) (pv : Nat) (st : IntegrateSt)
    (node : KnowledgeNode)
    (h : st.1.pagerank_version = pv ∧
      st.2.1.nodes_added ≤ st.1.nodes.length) :
    (integrateEntity now st node).1.pagerank_version = pv ∧
      (integrateEntity now st node).2.1.nodes_added ≤
        (integrateEntity now st node).1.nodes.length := by
  obtain ⟨h1, h2⟩ := h
  unfold integrateEntity
  dsimp only
  split
  · rename_i hcond
    cases hfind : st.1.find_node_by_label "user" (some node.type) with
    | some existing =>
        simp only [hfind]
        exact ⟨(updateNode_pagerank _ _ _).trans h1,
          le_trans h2 (le_of_eq (updateNode_length _ _ _).symm)⟩
    | none =>
        simp only [hfind]
        have hfind2 : st.1.find_node_by_label node.label (some node.type)
            = none := by
          rw [hcond.2]; exact hfind
        have hup : st.1.upsert_node node now =
            ({ st.1 with nodes := st.1.nodes ++ [node] }, node.id) := by
          unfold KnowledgeGraph.upsert_node
          rw [hfind2]
        rw [hup]
        refine ⟨h1, ?_⟩
        show st.2.1.nodes_added + 1 ≤ (st.1.nodes ++ [node]).length
        rw [List.length_append, List.length_singleton]
        omega
  · cases hfind : st.1.find_node_by_label node.label (some node.type) with
    | some existing =>
        simp only [hfind]
        exact ⟨(updateNode_pagerank _ _ _).trans h1,
          le_trans h2 (le_of_eq (updateNode_length _ _ _).symm)⟩
    | none =>
        simp only [hfind]
        have hup : st.1.upsert_node node now =
            ({ st.1 with nodes := st.1.nodes ++ [node] }, node.id) := by
          unfold KnowledgeGraph.upsert_node
          rw [hfind]
        rw [hup]
        refine ⟨h1, ?_⟩
        show st.2.1.nodes_added + 1 ≤ (st.1.nodes ++ [node]).length
        rw [List.length_append, List.length_singleton]
        omega

/-- The edge pass keeps the PageRank version, the node count and
`nodes_added`. -/
theorem integrateEdgeStep_version (now : ℚ) (pv : Nat)
    (st : KnowledgeGraph × IntegrationStats) (e : KnowledgeEdge)
    (h : st.1.pagerank_version = pv ∧
      st.2.nodes_added ≤ st.1.nodes.length) :
    (integrateEdgeStep now st e).1.pagerank_version = pv ∧
      (integrateEdgeStep now st e).2.nodes_added ≤
        (integrateEdgeStep now st e).1.nodes.length := by
  obtain ⟨h1, h2⟩ := h
  unfold integrateEdgeStep
  cases ha : st.1.getNodeData e.source_id <;>
    cases hb : st.1.getNodeData e.target_id <;> simp only [ha, hb]
  · exact ⟨h1, h2⟩
  · exact ⟨h1, h2⟩
  · exact ⟨h1, h2⟩
  · exact ⟨((upsert_edge_pagerank _ _ _).trans
        ((updateNode_pagerank _ _ _).trans (updateNode_pagerank _ _ _))).trans h1,
      le_trans h2 (le_of_eq (edgeTouch_len _ _ _ _ _ _ _).symm)⟩

/-- The facts pass keeps the PageRank version and `nodes_added` and never
shrinks the node list. -/
theorem integrateFactStep_version (now : ℚ) (pv : Nat)
    (st : KnowledgeGraph × IntegrationStats) (f : KnowledgeNode)
    (h : st.1.pagerank_version = pv ∧
      st.2.nodes_added ≤ st.1.nodes.length) :
    (integrateFactStep now st f).1.pagerank_version = pv ∧
      (integrateFactStep now st f).2.nodes_added ≤
        (integrateFactStep now st f).1.nodes.length := by
  obtain ⟨h1, h2⟩ := h
  unfold integrateFactStep
  cases hfind : st.1.find_node_by_label f.label none <;> simp only [hfind]
  · exact ⟨(upsert_node_pagerank _ _ _).trans h1,
      le_trans h2 (upsert_node_len_ge _ _ _)⟩
  · exact ⟨(updateNode_pagerank _ _ _).trans h1,
      le_trans h2 (le_of_eq (updateNode_length _ _ _).symm)⟩

/-- The preferences pass keeps the PageRank version and `nodes_added` and
never shrinks the node list. -/
theorem integratePrefStep_version (now : ℚ) (pv : Nat)
    (st : KnowledgeGraph × IntegrationStats) (p : KnowledgeNode)
    (h : st.1.pagerank_version = pv ∧
      st.2.nodes_added ≤ st.1.nodes.length) :
    (integratePrefStep now st p).1.pagerank_version = pv ∧
      (integratePrefStep now st p).2.nodes_added ≤
        (integratePrefStep now st p).1.nodes.length := by
  obtain ⟨h1, h2⟩ := h
  unfold integratePrefStep
  cases hfind : st.1.find_node_by_label p.label (some NodeType.preference) <;>
    simp only [hfind]
  · exact ⟨(upsert_node_pagerank _ _ _).trans h1,
      le_trans h2 (upsert_node_len_ge _ _ _)⟩
  · exact ⟨(updateNode_pagerank _ _ _).trans h1,
      le_trans h2 (le_of_eq (updateNode_length _ _ _).symm)⟩

/-- The questions pass keeps the PageRank version and never shrinks the node
list. -/
theorem integrateQuestionStep_version (now : ℚ) (pv c : Nat)
    (g : KnowledgeGraph) (q : KnowledgeNode)
    (h : g.pagerank_version = pv ∧ c ≤ g.nodes.length) :
    (integrateQuestionStep now g q).pagerank_version = pv ∧
      c ≤ (integrateQuestionStep now g q).nodes.length := by
  obtain ⟨h1, h2⟩ := h
  unfold integrateQuestionStep
  cases hfind : g.find_node_by_label q.label (some NodeType.question) <;>
    simp only [hfind]
  · exact ⟨(upsert_node_pagerank _ _ _).trans h1,
      le_trans h2 (upsert_node_len_ge _ _ _)⟩
  · exact ⟨h1, h2⟩

/-- The corrections pass keeps the PageRank version, the node count and
`nodes_added`. -/
theorem integrateCorrection_version (now : ℚ) (pv : Nat)
    (st : KnowledgeGraph × IntegrationStats) (c : Correction)
    (h : st.1.pagerank_version = pv ∧
      st.2.nodes_added ≤ st.1.nodes.length) :
    (integrateCorrection now st c).1.pagerank_version = pv ∧
      (integrateCorrection now st c).2.nodes_added ≤
        (integrateCorrection now st c).1.nodes.length := by
  obtain ⟨h1, h2⟩ := h
  unfold integrateCorrection
  dsimp only
  cases hw : st.1.find_node_by_label c.wrong none <;>
    cases hc : st.1.find_node_by_label c.correct none <;> simp only [hw, hc]
  · exact ⟨h1, h2⟩
  · exact ⟨(updateNode_pagerank _ _ _).trans h1,
      le_trans h2 (le_of_eq (updateNode_length _ _ _).symm)⟩
  · exact ⟨(updateNode_pagerank _ _ _).trans h1,
      le_trans h2 (le_of_eq (updateNode_length _ _ _).symm)⟩
  · exact ⟨((upsert_edge_pagerank _ _ _).trans
        (updateNode_pagerank _ _ _)).trans h1,
      le_trans h2 (le_of_eq (upsert_edge_updateNode_len _ _ _ _ _).symm)⟩

/-- C7, amended: `integrate` recomputes PageRank exactly when strictly more
than 3 nodes were added (the code's guard is `stats["nodes_added"] > 3`, not
the spec's `≥ 3`): with at most 3 added nodes the PageRank version is
untouched, with more than 3 it is bumped by exactly one recomputation. -/
theorem C7_pagerank_amended (g : KnowledgeGraph) (r : ExtractionResult)
    (now : ℚ) :
    ((integrate g r now).2.nodes_added ≤ 3 →
      (integrate g r now).1.pagerank_version = g.pagerank_version) ∧
    (3 < (integrate g r now).2.nodes_added →
      (integrate g r now).1.pagerank_version = g.pagerank_version + 1) := by
  unfold integrate
  split
  · exact ⟨fun _ => rfl, fun habs => absurd habs (Nat.not_lt.2 (Nat.zero_le 3))⟩
  · dsimp only
    have hent := foldl_preserve
      (fun (st : IntegrateSt) => st.1.pagerank_version = g.pagerank_version ∧
        st.2.1.nodes_added ≤ st.1.nodes.length)
      (integrateEntity now) r.entities
      (g, IntegrationStats.zero, ([] : List (String × String)))
      (fun s a _ hs => integrateEntity_version now g.pagerank_version s a hs)
      ⟨rfl, Nat.zero_le _⟩
    generalize hst1 : r.entities.foldl (integrateEntity now)
      (g, IntegrationStats.zero, ([] : List (String × String))) = st1
    rw [hst1] at hent
    have hedge := foldl_preserve
      (fun (st : KnowledgeGraph × IntegrationStats) =>
        st.1.pagerank_version = g.pagerank_version ∧
          st.2.nodes_added ≤ st.1.nodes.length)
      (integrateEdgeStep now) r.edges (st1.1, st1.2.1)
      (fun s a _ hs => integrateEdgeStep_version now g.pagerank_version s a hs)
      ⟨hent.1, hent.2⟩
    generalize hst2 : r.edges.foldl (integrateEdgeStep now)
      (st1.1, st1.2.1) = st2
    rw [hst2] at hedge
    have hfact := foldl_preserve
      (fun (st : KnowledgeGraph × IntegrationStats) =>
        st.1.pagerank_version = g.pagerank_version ∧
          st.2.nodes_added ≤ st.1.nodes.length)
      (integrateFactStep now) r.facts st2
      (fun s a _ hs => integrateFactStep_version now g.pagerank_version s a hs)
      hedge
    generalize hst3 : r.facts.foldl (integrateFactStep now) st2 = st3
    rw [hst3] at hfact
    have hpref := foldl_preserve
      (fun (st : KnowledgeGraph × IntegrationStats) =>
        st.1.pagerank_version = g.pagerank_version ∧
          st.2.nodes_added ≤ st.1.nodes.length)
      (integratePrefStep now) r.preferences st3
      (fun s a _ hs => integratePrefStep_version now g.pagerank_version s a hs)
      hfact
    generalize hst4 : r.preferences.foldl (integratePrefStep now) st3 = st4
    rw [hst4] at hpref
    have hq := foldl_preserve
      (fun (g5 : KnowledgeGraph) =>
        g5.pagerank_version = g.pagerank_version ∧
          st4.2.nodes_added ≤ g5.nodes.length)
      (integrateQuestionStep now) r.questions st4.1
      (fun s a _ hs => integrateQuestionStep_version now g.pagerank_version
        st4.2.nodes_added s a hs)
      ⟨hpref.1, hpref.2⟩
    generalize hg5 : r.questions.foldl (integrateQuestionStep now) st4.1 = g5
    rw [hg5] at hq
    have hcorr := foldl_preserve
      (fun (st : KnowledgeGraph × IntegrationStats) =>
        st.1.pagerank_version = g.pagerank_version ∧
          st.2.nodes_added ≤ st.1.nodes.length)
      (integrateCorrection now) r.corrections (g5, st4.2)
      (fun s a _ hs => integrateCorrection_version now g.pagerank_version s a hs)
      ⟨hq.1, hq.2⟩
    generalize hst6 : r.corrections.foldl (integrateCorrection now)
      (g5, st4.2) = st6
    rw [hst6] at hcorr
    constructor
    · intro hle
      have hcond : ¬ st6.2.nodes_added > 3 := Nat.not_lt.2 hle
      rw [if_neg hcond]
      exact hcorr.1
    · intro hgt
      have hcond : st6.2.nodes_added > 3 := hgt
      rw [if_pos hcond]
      have hc2 : st6.2.nodes_added ≤ st6.1.nodes.length := hcorr.2
      have hlen : ¬ st6.1.nodes.length < 2 := by omega
      unfold KnowledgeGraph.compute_pagerank
      rw [if_neg hlen]
      have hc1 : st6.1.pagerank_version = g.pagerank_version := hcorr.1
      show st6.1.pagerank_version + 1 = g.pagerank_version + 1
      rw [hc1]

def c7Ent (i : String) (lbl : String) : KnowledgeNode :=
  { id := i, type := NodeType.concept, label := lbl, display_label := lbl
    properties := [], confidence := 0.5
    created_at := 1, last_accessed := 1, last_updated := 1, access_count := 0
    domain := "general", sources := ["s"], embedding_id := ""
    deprecated := false, deprecation_reason := "" }

def c7Ext3 : ExtractionResult :=
  { entities := [c7Ent ("e1") ("alpha"), c7Ent ("e2") ("beta"),
                 c7Ent ("e3") ("gamma")]
    edges := [], preferences := [], corrections := [], questions := []
    facts := [], source := "s" }

def c7Ext4 : ExtractionResult :=
  { entities := [c7Ent ("e1") ("alpha"), c7Ent ("e2") ("beta"),
                 c7Ent ("e3") ("gamma"), c7Ent ("e4") ("delta")]
    edges := [], preferences := [], corrections := [], questions := []
    facts := [], source := "s" }

/-- C7 witness: integrating four fresh entities into the empty graph adds 4
nodes and does bump the PageRank version by one. -/
theorem C7_witness :
    3 < (integrate KnowledgeGraph.empty c7Ext4 2).2.nodes_added ∧
    (integrate KnowledgeGraph.empty c7Ext4 2).1.pagerank_version =
      KnowledgeGraph.empty.pagerank_version + 1 :=
  ⟨by decide, (C7_pagerank_amended KnowledgeGraph.empty c7Ext4 2).2 (by decide)⟩

/-- Counterexample for C7 as stated: integrating exactly 3 fresh entities
(so `nodes_added = 3 ≥ 3`) leaves the PageRank version at 0 — the code only
recomputes for strictly more than 3 added nodes. -/
theorem C7_counterexample :
    (integrate KnowledgeGraph.empty c7Ext3 2).2.nodes_added = 3 ∧
    (integrate KnowledgeGraph.empty c7Ext3 2).1.pagerank_version = 0 :=
  ⟨by decide, by decide⟩

/-- C8 (confirmed): nodes returned by `get_context_for_query` are never
deprecated, and the outgoing edges attached to each returned node exclude
edges whose target node is deprecated — for every graph, seed list, PageRank
map, recency function, time and `top_k`. -/
theorem C8_no_deprecated :
    ∀ (g : KnowledgeGraph) (seeds : List String)
      (pagerank : String → Option ℚ) (recencyFn : ℚ → ℚ) (now : ℚ)
      (top_k : Nat) (p : KnowledgeNode × List (KnowledgeNode × KnowledgeEdge)),
      p ∈ g.get_context_for_query seeds pagerank recencyFn now top_k →
      p.1.deprecated = false ∧ ∀ q ∈ p.2, q.1.deprecated = false := by
  intro g seeds pagerank recencyFn now top_k p hp
  unfold KnowledgeGraph.get_context_for_query at hp
  split at hp
  · simp at hp
  · dsimp only at hp
    obtain ⟨node, hnode, rfl⟩ := List.mem_map.1 hp
    constructor
    · obtain ⟨sp, hsp, hsnd⟩ := List.mem_map.1 hnode
      have hsp' := mem_sortDescByScore sp _ (List.mem_of_mem_take hsp)
      obtain ⟨nid, _, hsp2⟩ := List.mem_filterMap.1 hsp'
      cases hdat : g.getNodeData nid with
      | none => rw [hdat] at hsp2; exact absurd hsp2 (by simp)
      | some node0 =>
          rw [hdat] at hsp2
          dsimp only at hsp2
          by_cases hdep : node0.deprecated
          · rw [if_pos hdep] at hsp2
            exact absurd hsp2 (by simp)
          · rw [if_neg hdep] at hsp2
            have := Option.some.inj hsp2
            have h2 : sp.2 = node0.touch now := by rw [← this]
            dsimp only
            rw [← hsnd, h2, touch_deprecated]
            exact Bool.eq_false_iff.2 hdep
    · intro q hq
      unfold KnowledgeGraph.get_edges_from at hq
      obtain ⟨pr, _, hq2⟩ := List.mem_filterMap.1 hq
      by_cases hid : pr.1.1 = node.id
      · rw [if_pos hid] at hq2
        cases hdat : g.getNodeData pr.1.2 with
        | none => rw [hdat] at hq2; exact absurd hq2 (by simp)
        | some tgt =>
            rw [hdat] at hq2
            dsimp only at hq2
            by_cases hdep : tgt.deprecated
            · rw [if_pos hdep] at hq2
              exact absurd hq2 (by simp)
            · rw [if_neg hdep] at hq2
              have := Option.some.inj hq2
              have h1 : q.1 = tgt.touch now := by rw [← this]
              rw [h1, touch_deprecated]
              exact Bool.eq_false_iff.2 hdep
      · rw [if_neg hid] at hq2
        exact absurd hq2 (by simp)

def c8NodeA : KnowledgeNode :=
  { id := "a", type := NodeType.concept, label := "alpha"
    display_label := "alpha", properties := [], confidence := 0.5
    created_at := 0, last_accessed := 0, last_updated := 0, access_count := 0
    domain := "general", sources := [], embedding_id := ""
    deprecated := false, deprecation_reason := "" }

def c8NodeB : KnowledgeNode :=
  { id := "b", type := NodeType.concept, label := "beta"
    display_label := "beta", properties := [], confidence := 0.5
    created_at := 0, last_accessed := 0, last_updated := 0, access_count := 0
    domain := "general", sources := [], embedding_id := ""
    deprecated := true, deprecation_reason := "old" }

def c8Edge : KnowledgeEdge :=
  { source_id := "a", target_id := "b", type := EdgeType.relates_to
    confidence := 0.6, weight := 1, properties := []
    created_at := 0, last_reinforced := 0 }

def c8Graph : KnowledgeGraph :=
  ⟨[c8NodeA, c8NodeB], [(("a", "b"), c8Edge)], 0⟩

def c8Pair : KnowledgeNode × List (KnowledgeNode × KnowledgeEdge) :=
  (c8NodeA.touch 2, [])

/-- Witness for C8: on a concrete graph with a deprecated neighbour, the one
returned context entry is active and its (deprecated-target) edge list is
empty. -/
theorem C8_witness :
    c8Pair.1.deprecated = false ∧ ∀ q ∈ c8Pair.2, q.1.deprecated = false :=
  C8_no_deprecated c8Graph ["a"] (fun _ => none) (fun _ => 1) 2 12 c8Pair
    (show c8Pair ∈ [c8Pair] from List.mem_singleton.2 rfl)

end Psycho
